import Mathlib

/-!
MP-Adhoc-Net: traffic classification, energy ledger and flow statistics.

A shallow embedding of the computational core of `scratch/akshat-adhoc.cc`:

* the sender list, the sender classification and rate balancing and the send
  schedules of `InstallRandomizedUdpTraffic` (lines 155-221),
* the depletion callback `EnergyDepletedCallback` together with the globals it
  mutates (lines 89-114) and their reset in `main` (lines 424-430),
* the flow-statistics reduction of `main` (lines 443-488),
* the path of `main` from the installed energy sources to the energy report
  (lines 323-383 and 504-544),

and of the flow-statistics reductions of `scratch/adhoc-battery.cc`
(lines 197-242) and `scratch/adhoc-comparision.cc` (lines 160-205).

Conventions of the embedding.

* A C++ `double` is a rational number and its arithmetic is exact; infinities
  and NaN are outside the model, except that a floating-point division whose
  divisor can be zero is made explicit (`fdiv` returns `none`). Plain division
  is used only where the source keeps the divisor away from zero by a
  `std::max` or by a test. Where a statement names the very value the program
  computes, the rates are computed a second time with every operation rounded
  to binary64 (`roundToDouble`).
* A `uint32_t` is a natural number below `2^32`; every operation that can wrap
  carries an explicit `% 2^32`.
* The simulator clock `Simulator::Now().GetSeconds()` is passed to the callback
  as an explicit argument.
* The random draws and the permutation of `std::shuffle` are parameters.
-/

namespace AdhocNet

/-! ## Machine arithmetic -/

/-- Modulus of `uint32_t`. -/
def u32 : Nat := 2 ^ 32

/-- The cast `(uint32_t) x` of a `double` holding an integral value, as applied
to the results of `std::floor` and `std::ceil`. The value is truncated to a
natural number and reduced modulo `2^32` (for a negative or too large operand
the C++ cast is undefined; the model truncates at zero and wraps). -/
def castU32 (x : ℤ) : Nat := x.toNat % u32

/-- Division of two `double`s; `none` stands for the non-finite result
(infinity or NaN) of dividing by zero. -/
def fdiv (a b : ℚ) : Option ℚ := if b = 0 then none else some (a / b)

/-! ## `InstallRandomizedUdpTraffic`: sender classes and rates -/

/-- Line 179:
`heavyCount = std::max<uint32_t>(1, (uint32_t)std::floor(heavyFraction * totalSenders))`. -/
def heavyCount (heavyFraction : ℚ) (totalSenders : Nat) : Nat :=
  max 1 (castU32 ⌊heavyFraction * (totalSenders : ℚ)⌋)

/-- Line 180: `lightCount = totalSenders - heavyCount` on `uint32_t`. -/
def lightCount (heavyFraction : ℚ) (totalSenders : Nat) : Nat :=
  (totalSenders + u32 - heavyCount heavyFraction totalSenders) % u32

/-- Line 183: `r_l = 1.0 / std::max(1e-6, meanLightIntervalSeconds)`. -/
def r_l (meanLightIntervalSeconds : ℚ) : ℚ :=
  1 / max (1 / 1000000) meanLightIntervalSeconds

/-- Line 191: `ratio = (heavyTrafficShare / std::max(1e-9, 1.0 - heavyTrafficShare))
* ((double)lightCount / (double)heavyCount)`. In the source `heavyCount` is at
least 1 (line 179), so the second divisor is not zero. -/
def ratio (heavyTrafficShare : ℚ) (lightCnt heavyCnt : Nat) : ℚ :=
  (heavyTrafficShare / max (1 / 1000000000) (1 - heavyTrafficShare))
    * ((lightCnt : ℚ) / (heavyCnt : ℚ))

/-- Lines 184-193: the heavy rate; equal to the light rate when there is no
light sender, otherwise `std::max(1e-6, ratio * r_l)`. -/
def r_h (heavyTrafficShare meanLightIntervalSeconds : ℚ) (lightCnt heavyCnt : Nat) : ℚ :=
  if lightCnt = 0 then r_l meanLightIntervalSeconds
  else max (1 / 1000000)
    (ratio heavyTrafficShare lightCnt heavyCnt * r_l meanLightIntervalSeconds)

/-- Line 194: `meanHeavyIntervalSeconds = 1.0 / r_h`. -/
def meanHeavyIntervalSeconds (heavyTrafficShare meanLightIntervalSeconds : ℚ)
    (lightCnt heavyCnt : Nat) : ℚ :=
  1 / r_h heavyTrafficShare meanLightIntervalSeconds lightCnt heavyCnt

/-- The share of the aggregate expected traffic that the heavy group produces,
`H * r_h / (H * r_h + L * r_l)` (the equation in the comment of line 182). -/
def heavyShare (heavyTrafficShare meanLightIntervalSeconds : ℚ)
    (lightCnt heavyCnt : Nat) : ℚ :=
  ((heavyCnt : ℚ) * r_h heavyTrafficShare meanLightIntervalSeconds lightCnt heavyCnt)
    / ((heavyCnt : ℚ) * r_h heavyTrafficShare meanLightIntervalSeconds lightCnt heavyCnt
        + (lightCnt : ℚ) * r_l meanLightIntervalSeconds)

/-! ## `EnergyDepletedCallback`: the depletion ledger -/

/-- The globals of lines 89-94. A death time below zero means "not depleted";
`g_timeNst50 <= 0` means that the 50 % survival time is not recorded. -/
structure Ledger where
  g_nodeDeathTimes : List ℚ
  g_numNodesGlobal : Nat
  g_allDeadRecorded : Bool
  g_timeAllDead : ℚ
  g_deadCount : Nat
  g_timeNst50 : ℚ
  deriving DecidableEq, Repr

/-- The reset of the globals in `main`, lines 425-430, for `numNodes` nodes. -/
def resetLedger (numNodes : Nat) : Ledger :=
  { g_nodeDeathTimes := List.replicate numNodes (-1)
    g_numNodesGlobal := numNodes
    g_allDeadRecorded := false
    g_deadCount := 0
    g_timeAllDead := 0
    g_timeNst50 := 0 }

/-- The threshold `(uint32_t)std::ceil(0.5 * g_numNodesGlobal)` of line 104. -/
def halfThreshold (numNodes : Nat) : Nat :=
  castU32 ⌈(1 / 2 : ℚ) * (numNodes : ℚ)⌉

/-- Lines 96-114. The argument `t` is the value of
`Simulator::Now().GetSeconds()` at the call. -/
def EnergyDepletedCallback (s : Ledger) (nodeId : Nat) (t : ℚ) : Ledger :=
  if nodeId < s.g_nodeDeathTimes.length ∧ s.g_nodeDeathTimes.getD nodeId 0 < 0 then
    let s1 : Ledger :=
      { s with g_nodeDeathTimes := s.g_nodeDeathTimes.set nodeId t
               g_deadCount := (s.g_deadCount + 1) % u32 }
    let s2 : Ledger :=
      if halfThreshold s1.g_numNodesGlobal ≤ s1.g_deadCount ∧ s1.g_timeNst50 ≤ 0 then
        { s1 with g_timeNst50 := t }
      else s1
    if s2.g_deadCount = s2.g_numNodesGlobal ∧ s2.g_allDeadRecorded = false then
      { s2 with g_allDeadRecorded := true, g_timeAllDead := t }
    else s2
  else s

/-- A run of the simulation as far as the ledger sees it: the depletion
notifications `(nodeId, time)` in the order the event engine delivers them. -/
def runDepletions (s : Ledger) (evs : List (Nat × ℚ)) : Ledger :=
  evs.foldl (fun acc e => EnergyDepletedCallback acc e.1 e.2) s

/-- The 50 % survival time as the report of lines 547-554 reads it: absent
("not reached within simulation") when `g_timeNst50 <= 0.0`. -/
def survivalTime50 (s : Ledger) : Option ℚ :=
  if s.g_timeNst50 ≤ 0 then none else some s.g_timeNst50

/-- The all-dead survival time as the report of lines 555-562 reads it: absent
when `g_allDeadRecorded` is false. -/
def survivalTimeAll (s : Ledger) : Option ℚ :=
  if s.g_allDeadRecorded = false then none else some s.g_timeAllDead

/-- Node `i` is recorded depleted: its death time exists and is not negative
(the negation of the guard of line 100). -/
def isDepleted (s : Ledger) (i : Nat) : Prop :=
  i < s.g_nodeDeathTimes.length ∧ 0 ≤ s.g_nodeDeathTimes.getD i 0

instance (s : Ledger) (i : Nat) : Decidable (isDepleted s i) := by
  unfold isDepleted; infer_instance

/-- Number of death times that are not negative, that is, of nodes recorded
depleted. -/
def countDepleted (l : List ℚ) : Nat := l.countP (fun x => decide (0 ≤ x))

/-- What holds of the ledger for `n` nodes after the notifications `evs` were
delivered to the freshly reset ledger (times not negative). -/
structure LedgerInv (n : Nat) (evs : List (Nat × ℚ)) (s : Ledger) : Prop where
  numNodes : s.g_numNodesGlobal = n
  length : s.g_nodeDeathTimes.length = n
  count : s.g_deadCount = countDepleted s.g_nodeDeathTimes
  flag : s.g_allDeadRecorded = true ↔ (s.g_deadCount = n ∧ 0 < n)
  marked : ∀ i, i < n → (0 ≤ s.g_nodeDeathTimes.getD i 0 ↔ ∃ e ∈ evs, e.1 = i)
  nst50 : s.g_timeNst50 = 0 ∨ ∃ e ∈ evs, s.g_timeNst50 = e.2

/-! ## The flow-statistics reduction of `main` -/

/-- The fields of `FlowMonitor::FlowStats` that the reduction reads; times and
the delay sum are in seconds (`GetSeconds()`). -/
structure FlowStats where
  delaySum : ℚ
  rxPackets : Nat
  txPackets : Nat
  lostPackets : Nat
  rxBytes : Nat
  timeFirstTxPacket : ℚ
  timeLastRxPacket : ℚ
  deriving DecidableEq, Repr

/-- The accumulators of lines 443-449. -/
structure FlowTotals where
  totalDelay : ℚ
  totalRxPackets : Nat
  totalTxPackets : Nat
  totalLostPackets : Nat
  totalRxBytes : ℚ
  firstTxTime : ℚ
  lastRxTime : ℚ
  deriving DecidableEq, Repr

/-- Initial values of the accumulators, lines 443-449. -/
def initTotals (simTime : ℚ) : FlowTotals :=
  { totalDelay := 0
    totalRxPackets := 0
    totalTxPackets := 0
    totalLostPackets := 0
    totalRxBytes := 0
    firstTxTime := simTime
    lastRxTime := 0 }

/-- One iteration of the loop of lines 451-469; the packet counters are
`uint32_t` and wrap. -/
def accumulate (a : FlowTotals) (f : FlowStats) : FlowTotals :=
  { totalDelay := a.totalDelay + f.delaySum
    totalRxPackets := (a.totalRxPackets + f.rxPackets) % u32
    totalTxPackets := (a.totalTxPackets + f.txPackets) % u32
    totalLostPackets := (a.totalLostPackets + f.lostPackets) % u32
    totalRxBytes := a.totalRxBytes + (f.rxBytes : ℚ)
    firstTxTime := if 0 < f.txPackets then min a.firstTxTime f.timeFirstTxPacket
                   else a.firstTxTime
    lastRxTime := if 0 < f.rxPackets then max a.lastRxTime f.timeLastRxPacket
                  else a.lastRxTime }

/-- The whole loop of lines 451-469 over the flow records in map order. -/
def foldFlows (simTime : ℚ) (stats : List FlowStats) : FlowTotals :=
  stats.foldl accumulate (initTotals simTime)

/-- Lines 472-476: the transmission window, with its fallback. -/
def totalDuration (a : FlowTotals) (simTime : ℚ) : ℚ :=
  if a.lastRxTime - a.firstTxTime ≤ 0 then simTime - 2
  else a.lastRxTime - a.firstTxTime

/-- Line 479: throughput in kbit/s; `none` when the divisor is zero. -/
def throughput (a : FlowTotals) (simTime : ℚ) : Option ℚ :=
  fdiv (a.totalRxBytes * 8) (totalDuration a simTime * 1000)

/-- Line 482: average delay in milliseconds. -/
def avgDelay (a : FlowTotals) : ℚ :=
  if 0 < a.totalRxPackets then (a.totalDelay / (a.totalRxPackets : ℚ)) * 1000 else 0

/-- Line 485: packet delivery ratio in percent. -/
def pdr (a : FlowTotals) : ℚ :=
  if 0 < a.totalTxPackets then ((a.totalRxPackets : ℚ) / (a.totalTxPackets : ℚ)) * 100
  else 0

/-- Line 488: packet loss ratio in percent. -/
def plr (a : FlowTotals) : ℚ :=
  if 0 < a.totalTxPackets then ((a.totalLostPackets : ℚ) / (a.totalTxPackets : ℚ)) * 100
  else 0

/-! ## The rate computation with its divisions made explicit -/

/-- Minimum of a list of times, `none` for the empty list. -/
def minOfList : List ℚ → Option ℚ
  | [] => none
  | t :: ts => some (ts.foldl min t)

/-- Maximum of a list of times, `none` for the empty list. -/
def maxOfList : List ℚ → Option ℚ
  | [] => none
  | t :: ts => some (ts.foldl max t)

/-- The first-transmit times of the records with `txPackets > 0`. -/
def txTimes (stats : List FlowStats) : List ℚ :=
  (stats.filter fun f => decide (0 < f.txPackets)).map FlowStats.timeFirstTxPacket

/-- The last-receive times of the records with `rxPackets > 0`. -/
def rxTimes (stats : List FlowStats) : List ℚ :=
  (stats.filter fun f => decide (0 < f.rxPackets)).map FlowStats.timeLastRxPacket

/-- The specification's firstTxTime, in its words: the minimum of
timeFirstTxPacket over the records with txPackets > 0 when there is one,
simTime when there is none. -/
def specFirstTxTime (simTime : ℚ) (stats : List FlowStats) : ℚ :=
  match minOfList (txTimes stats) with
  | some m => m
  | none => simTime

/-- The specification's lastRxTime, in its words: the maximum of
timeLastRxPacket over the records with rxPackets > 0 when there is one, 0 when
there is none. -/
def specLastRxTime (stats : List FlowStats) : ℚ :=
  match maxOfList (rxTimes stats) with
  | some m => m
  | none => 0

/-! ## `InstallRandomizedUdpTraffic`: the sender list and the schedules -/

/-- Lines 161-170: the node ids `0 .. numNodes - 1` in order, the sink left
out. -/
def senderIds (numNodes sinkNodeId : Nat) : List Nat :=
  (List.range numNodes).foldl
    (fun ids i => if i = sinkNodeId then ids else ids ++ [i]) []

/-- The random sources of the function. `expHeavy idx` and `expLight idx` are
the values `expHeavy->GetValue()` and `expLight->GetValue()` return in
iteration `idx` of the loop of line 200, `uniformValue idx lo hi` is the value
of `uniform->GetValue(lo, hi)` in that iteration. -/
structure RandomStreams where
  expHeavy : Nat → ℚ
  expLight : Nat → ℚ
  uniformValue : Nat → ℚ → ℚ → ℚ

/-- What lines 202-215 install for one sender. -/
structure SendSchedule where
  nodeId : Nat
  isHeavy : Bool
  interval : ℚ
  startTime : ℚ
  stopTime : ℚ
  maxPackets : Nat
  packetSize : Nat

/-- Line 212: `base = isHeavy ? meanHeavyIntervalSeconds : meanLightIntervalSeconds`. -/
def classMeanInterval (isHeavy : Bool) (meanHeavy meanLight : ℚ) : ℚ :=
  if isHeavy then meanHeavy else meanLight

/-- Line 213: `jitter = uniform->GetValue(0.0, 0.5 * base)` in iteration `idx`. -/
def jitter (rng : RandomStreams) (idx : Nat) (isHeavy : Bool) (meanHeavy meanLight : ℚ) : ℚ :=
  rng.uniformValue idx 0 ((1 / 2) * classMeanInterval isHeavy meanHeavy meanLight)

/-- The body of the loop of lines 200-217 for position `idx` of the shuffled
sender list, holding `nodeId`. -/
def scheduleSender (rng : RandomStreams) (heavyCnt : Nat) (meanHeavy meanLight : ℚ)
    (startTime stopTime : ℚ) (maxPacketsPerSender packetSize : Nat)
    (idx nodeId : Nat) : SendSchedule :=
  { nodeId := nodeId
    isHeavy := decide (idx < heavyCnt)
    interval :=
      if idx < heavyCnt then max (1 / 100) (rng.expHeavy idx)
      else max (1 / 100) (rng.expLight idx)
    startTime := startTime + jitter rng idx (decide (idx < heavyCnt)) meanHeavy meanLight
    stopTime := stopTime
    maxPackets := maxPacketsPerSender
    packetSize := packetSize }

/-- The applications `InstallRandomizedUdpTraffic` returns: the echo server on
the sink (application 0, whose times lines 219-220 set) and one client per
sender. The values of the locals `senderIds` (after the shuffle),
`totalSenders`, `heavyCount`, `lightCount` and `meanHeavyIntervalSeconds` are
kept alongside so that statements can refer to them. -/
structure TrafficInstall where
  shuffledIds : List Nat
  totalSenders : Nat
  heavyCnt : Nat
  lightCnt : Nat
  meanHeavy : ℚ
  sinkStartTime : ℚ
  sinkStopTime : ℚ
  senders : List SendSchedule

/-- Lines 155-221. `shuffle` is the permutation `std::shuffle` applies with the
engine seeded in line 175. -/
def InstallRandomizedUdpTraffic (rng : RandomStreams) (shuffle : List Nat → List Nat)
    (numNodes : Nat) (startTime stopTime heavyFraction heavyTrafficShare
      meanLightIntervalSeconds : ℚ)
    (maxPacketsPerSender packetSize sinkNodeId : Nat) : TrafficInstall :=
  let ids := shuffle (senderIds numNodes sinkNodeId)
  let total := ids.length % u32
  let hc := heavyCount heavyFraction total
  let lc := lightCount heavyFraction total
  let mh := meanHeavyIntervalSeconds heavyTrafficShare meanLightIntervalSeconds lc hc
  { shuffledIds := ids
    totalSenders := total
    heavyCnt := hc
    lightCnt := lc
    meanHeavy := mh
    sinkStartTime := 1
    sinkStopTime := stopTime
    senders := (List.range total).map fun idx =>
      scheduleSender rng hc mh meanLightIntervalSeconds startTime stopTime
        maxPacketsPerSender packetSize idx (ids.getD idx 0) }

/-! ## The energy report of `main`

The path of `main` from the installation of the energy sources to the report:
the loop that configures the batteries (lines 323-332), the recording loop
(lines 336-362), the loop that connects the traces (lines 375-383) and the
report loop (lines 504-544), as functions of the container of energy sources.
The first and the third loop call a method on the result of
`DynamicCast<GenericBatteryModel>` without testing it; for a source of another
type the pointer is null and the program does not continue, which is `none`
here. `main` installs every source with `GenericBatteryModelHelper`. -/

/-- The outcome of the two `DynamicCast`s of lines 342 and 350 (and 510, 524). -/
inductive EnergySourceKind where
  | genericBattery
  | basicSource
  | unknown
  deriving DecidableEq, Repr

/-- An installed energy source: its type and the values `GetRemainingEnergy()`
returns when the initial energy is recorded (lines 339-362) and when the
report is made (lines 507-538). -/
structure EnergySource where
  kind : EnergySourceKind
  remainingAtRecord : ℚ
  remainingAtReport : ℚ
  deriving DecidableEq, Repr

/-- Lines 323-332: every source is cast to `GenericBatteryModel` and the result
is dereferenced (`battery->SetAttribute`); `none` when a cast gives null. The
attributes set here are not read by the report. -/
def configureBatteries (sources : List EnergySource) : Option Unit :=
  sources.foldl
    (fun st src =>
      st.bind fun _ =>
        match src.kind with
        | .genericBattery => some ()
        | .basicSource => none
        | .unknown => none)
    (some ())

/-- Lines 375-383: every source is cast to `GenericBatteryModel` and the result
is dereferenced (`battery->TraceConnectWithoutContext`); `none` when a cast
gives null. -/
def connectRemainingEnergyTraces (sources : List EnergySource) : Option Unit :=
  sources.foldl
    (fun st src =>
      st.bind fun _ =>
        match src.kind with
        | .genericBattery => some ()
        | .basicSource => none
        | .unknown => none)
    (some ())

/-- The loop of lines 339-362 by itself: `g_initialEnergyJ` after it. -/
def recordInitialEnergyLoop (sources : List EnergySource) : List ℚ :=
  sources.enum.foldl
    (fun v p =>
      match p.2.kind with
      | .genericBattery => v.set p.1 p.2.remainingAtRecord
      | .basicSource => v.set p.1 p.2.remainingAtRecord
      | .unknown => v.set p.1 0)
    (List.replicate sources.length 0)

/-- The totals printed by lines 541-544. -/
structure EnergyTotals where
  totalInitialJ : ℚ
  totalRemainingJ : ℚ
  totalConsumedJ : ℚ
  deriving DecidableEq, Repr

/-- One iteration of the loop of lines 507-538 on the pair
`(totalInitialJ, totalRemainingJ)`. -/
def reportStep (initialEnergyJ : List ℚ) (acc : ℚ × ℚ) (p : Nat × EnergySource) : ℚ × ℚ :=
  match p.2.kind with
  | .genericBattery =>
    (acc.1 + (if p.1 < initialEnergyJ.length then initialEnergyJ.getD p.1 0 else 0),
      acc.2 + p.2.remainingAtReport)
  | .basicSource =>
    (acc.1 + (if p.1 < initialEnergyJ.length then initialEnergyJ.getD p.1 0 else 0),
      acc.2 + p.2.remainingAtReport)
  | .unknown => acc

/-- The loop of lines 507-538 and the totals of lines 541-544 by themselves,
from the recorded initial energies and the sources. -/
def energyReportLoop (initialEnergyJ : List ℚ) (sources : List EnergySource) :
    EnergyTotals :=
  let acc := sources.enum.foldl (reportStep initialEnergyJ) (0, 0)
  { totalInitialJ := acc.1
    totalRemainingJ := acc.2
    totalConsumedJ := acc.1 - acc.2 }

/-- Lines 323-362 of `main`: `g_initialEnergyJ` as recorded, when the program
gets past the configuration loop. -/
def recordInitialEnergy (sources : List EnergySource) : Option (List ℚ) :=
  (configureBatteries sources).map fun _ => recordInitialEnergyLoop sources

/-- Lines 323-544 of `main` as far as the energy report goes: the totals that
are printed, when the program gets past the two loops that dereference the
battery cast. -/
def energyReport (sources : List EnergySource) : Option EnergyTotals :=
  (recordInitialEnergy sources).bind fun initialEnergyJ =>
    (connectRemainingEnergyTraces sources).map fun _ =>
      energyReportLoop initialEnergyJ sources

/-- What a source adds to totalInitialEnergy according to the specification:
nothing for an unrecognized source, the recorded initial energy otherwise. -/
def specInitialContribution (src : EnergySource) : ℚ :=
  match src.kind with
  | .unknown => 0
  | _ => src.remainingAtRecord

/-- What a source adds to totalRemainingEnergy according to the specification:
nothing for an unrecognized source, the current remaining energy otherwise. -/
def specRemainingContribution (src : EnergySource) : ℚ :=
  match src.kind with
  | .unknown => 0
  | _ => src.remainingAtReport

/-! ## An example installation -/

/-- Random sources for an example: a heavy draw below the floor of 0.01 s, a
light draw of 3 s, and a uniform draw in the middle of the requested range. -/
def exampleStreams : RandomStreams :=
  { expHeavy := fun _ => 1 / 200
    expLight := fun _ => 3
    uniformValue := fun _ lo hi => (lo + hi) / 2 }

/-- Three nodes with sink 0, the identity as shuffle, and the parameters `main`
passes (start 2.0, horizon 300, 20 % heavy senders with 80 % of the traffic). -/
def exampleInstall : TrafficInstall :=
  InstallRandomizedUdpTraffic exampleStreams id 3 2 300 (2 / 10) (8 / 10) 1 320 512 0

/-! ## The flow-statistics reductions of the other two programs

`scratch/adhoc-battery.cc` (lines 197-242) and `scratch/adhoc-comparision.cc`
(lines 160-205), each embedded from its own source. The input type
`FlowMonitor::FlowStats` belongs to the simulator library and is shared; the
accumulators are the same seven locals in the three programs, so `FlowTotals`
serves for all of them. -/

/-- What a program prints of its reduction: the three packet totals and the
four metrics. -/
structure FlowReport where
  totalTxPackets : Nat
  totalRxPackets : Nat
  totalLostPackets : Nat
  throughput : Option ℚ
  avgDelay : ℚ
  pdr : ℚ
  plr : ℚ
  deriving DecidableEq, Repr

/-- The figures `akshat-adhoc.cc` prints in lines 493-500. -/
def flowReport (simTime : ℚ) (stats : List FlowStats) : FlowReport :=
  { totalTxPackets := (foldFlows simTime stats).totalTxPackets
    totalRxPackets := (foldFlows simTime stats).totalRxPackets
    totalLostPackets := (foldFlows simTime stats).totalLostPackets
    throughput := throughput (foldFlows simTime stats) simTime
    avgDelay := avgDelay (foldFlows simTime stats)
    pdr := pdr (foldFlows simTime stats)
    plr := plr (foldFlows simTime stats) }

namespace AdhocBattery

/-- Initial values of the accumulators, `adhoc-battery.cc` lines 197-203. -/
def initTotals (simTime : ℚ) : FlowTotals :=
  { totalDelay := 0
    totalRxPackets := 0
    totalTxPackets := 0
    totalLostPackets := 0
    totalRxBytes := 0
    firstTxTime := simTime
    lastRxTime := 0 }

/-- One iteration of the loop of `adhoc-battery.cc` lines 205-223. -/
def accumulate (a : FlowTotals) (f : FlowStats) : FlowTotals :=
  { totalDelay := a.totalDelay + f.delaySum
    totalRxPackets := (a.totalRxPackets + f.rxPackets) % u32
    totalTxPackets := (a.totalTxPackets + f.txPackets) % u32
    totalLostPackets := (a.totalLostPackets + f.lostPackets) % u32
    totalRxBytes := a.totalRxBytes + (f.rxBytes : ℚ)
    firstTxTime := if 0 < f.txPackets then min a.firstTxTime f.timeFirstTxPacket
                   else a.firstTxTime
    lastRxTime := if 0 < f.rxPackets then max a.lastRxTime f.timeLastRxPacket
                  else a.lastRxTime }

/-- The loop of `adhoc-battery.cc` lines 205-223 over the records in map order. -/
def foldFlows (simTime : ℚ) (stats : List FlowStats) : FlowTotals :=
  stats.foldl accumulate (initTotals simTime)

/-- The window and its fallback, `adhoc-battery.cc` lines 226-230. -/
def totalDuration (a : FlowTotals) (simTime : ℚ) : ℚ :=
  if a.lastRxTime - a.firstTxTime ≤ 0 then simTime - 2
  else a.lastRxTime - a.firstTxTime

/-- Throughput, `adhoc-battery.cc` line 233. -/
def throughput (a : FlowTotals) (simTime : ℚ) : Option ℚ :=
  fdiv (a.totalRxBytes * 8) (totalDuration a simTime * 1000)

/-- Average delay, `adhoc-battery.cc` line 236. -/
def avgDelay (a : FlowTotals) : ℚ :=
  if 0 < a.totalRxPackets then (a.totalDelay / (a.totalRxPackets : ℚ)) * 1000 else 0

/-- Packet delivery ratio, `adhoc-battery.cc` line 239. -/
def pdr (a : FlowTotals) : ℚ :=
  if 0 < a.totalTxPackets then ((a.totalRxPackets : ℚ) / (a.totalTxPackets : ℚ)) * 100
  else 0

/-- Packet loss ratio, `adhoc-battery.cc` line 242. -/
def plr (a : FlowTotals) : ℚ :=
  if 0 < a.totalTxPackets then ((a.totalLostPackets : ℚ) / (a.totalTxPackets : ℚ)) * 100
  else 0

/-- The figures `adhoc-battery.cc` prints in lines 247-254. -/
def flowReport (simTime : ℚ) (stats : List FlowStats) : FlowReport :=
  { totalTxPackets := (foldFlows simTime stats).totalTxPackets
    totalRxPackets := (foldFlows simTime stats).totalRxPackets
    totalLostPackets := (foldFlows simTime stats).totalLostPackets
    throughput := throughput (foldFlows simTime stats) simTime
    avgDelay := avgDelay (foldFlows simTime stats)
    pdr := pdr (foldFlows simTime stats)
    plr := plr (foldFlows simTime stats) }

end AdhocBattery

namespace AdhocComparision

/-- Initial values of the accumulators, `adhoc-comparision.cc` lines 160-166. -/
def initTotals (simTime : ℚ) : FlowTotals :=
  { totalDelay := 0
    totalRxPackets := 0
    totalTxPackets := 0
    totalLostPackets := 0
    totalRxBytes := 0
    firstTxTime := simTime
    lastRxTime := 0 }

/-- One iteration of the loop of `adhoc-comparision.cc` lines 168-186. -/
def accumulate (a : FlowTotals) (f : FlowStats) : FlowTotals :=
  { totalDelay := a.totalDelay + f.delaySum
    totalRxPackets := (a.totalRxPackets + f.rxPackets) % u32
    totalTxPackets := (a.totalTxPackets + f.txPackets) % u32
    totalLostPackets := (a.totalLostPackets + f.lostPackets) % u32
    totalRxBytes := a.totalRxBytes + (f.rxBytes : ℚ)
    firstTxTime := if 0 < f.txPackets then min a.firstTxTime f.timeFirstTxPacket
                   else a.firstTxTime
    lastRxTime := if 0 < f.rxPackets then max a.lastRxTime f.timeLastRxPacket
                  else a.lastRxTime }

/-- The loop of `adhoc-comparision.cc` lines 168-186 over the records in map
order. -/
def foldFlows (simTime : ℚ) (stats : List FlowStats) : FlowTotals :=
  stats.foldl accumulate (initTotals simTime)

/-- The window and its fallback, `adhoc-comparision.cc` lines 189-193. -/
def totalDuration (a : FlowTotals) (simTime : ℚ) : ℚ :=
  if a.lastRxTime - a.firstTxTime ≤ 0 then simTime - 2
  else a.lastRxTime - a.firstTxTime

/-- Throughput, `adhoc-comparision.cc` line 196. -/
def throughput (a : FlowTotals) (simTime : ℚ) : Option ℚ :=
  fdiv (a.totalRxBytes * 8) (totalDuration a simTime * 1000)

/-- Average delay, `adhoc-comparision.cc` line 199. -/
def avgDelay (a : FlowTotals) : ℚ :=
  if 0 < a.totalRxPackets then (a.totalDelay / (a.totalRxPackets : ℚ)) * 1000 else 0

/-- Packet delivery ratio, `adhoc-comparision.cc` line 202. -/
def pdr (a : FlowTotals) : ℚ :=
  if 0 < a.totalTxPackets then ((a.totalRxPackets : ℚ) / (a.totalTxPackets : ℚ)) * 100
  else 0

/-- Packet loss ratio, `adhoc-comparision.cc` line 205. -/
def plr (a : FlowTotals) : ℚ :=
  if 0 < a.totalTxPackets then ((a.totalLostPackets : ℚ) / (a.totalTxPackets : ℚ)) * 100
  else 0

/-- The figures `adhoc-comparision.cc` prints in lines 210-217. -/
def flowReport (simTime : ℚ) (stats : List FlowStats) : FlowReport :=
  { totalTxPackets := (foldFlows simTime stats).totalTxPackets
    totalRxPackets := (foldFlows simTime stats).totalRxPackets
    totalLostPackets := (foldFlows simTime stats).totalLostPackets
    throughput := throughput (foldFlows simTime stats) simTime
    avgDelay := avgDelay (foldFlows simTime stats)
    pdr := pdr (foldFlows simTime stats)
    plr := plr (foldFlows simTime stats) }

end AdhocComparision

/-! ## Binary64 rounding

The rates of lines 179-194 once more, every arithmetic operation rounded to
the nearest binary64 number (ties to even), as the program computes them. The
exponent range is not bounded; the values of the scenario below are far from
overflow and from the subnormal numbers. -/

/-- The integer nearest to `n / d`, ties going to the even integer. -/
def roundHalfEven (n d : Nat) : Nat :=
  if 2 * (n % d) < d then n / d
  else if d < 2 * (n % d) then n / d + 1
  else if (n / d) % 2 = 0 then n / d
  else n / d + 1

/-- With enough fuel, the number of binary digits of `n`. -/
def bitLengthAux : Nat → Nat → Nat
  | 0, _ => 0
  | fuel + 1, n => if n = 0 then 0 else bitLengthAux fuel (n / 2) + 1

/-- The number of binary digits of `n` (0 for 0). -/
def bitLength (n : Nat) : Nat := bitLengthAux n n

/-- The exponent `E` with `2^E ≤ n / d < 2^(E+1)`, for positive `n` and `d`. -/
def floorLog2 (n d : Nat) : Int :=
  if d * 2 ^ ((bitLength n : Int) - (bitLength d : Int)).toNat
      ≤ n * 2 ^ ((bitLength d : Int) - (bitLength n : Int)).toNat
  then (bitLength n : Int) - (bitLength d : Int)
  else (bitLength n : Int) - (bitLength d : Int) - 1

/-- The binary64 number nearest to `x`: a significand of 53 binary digits,
round to nearest, ties to even. -/
def roundToDouble (x : ℚ) : ℚ :=
  if x = 0 then 0
  else
    (if x < 0 then -1 else 1)
      * (roundHalfEven
          (x.num.natAbs * 2 ^ (52 - floorLog2 x.num.natAbs x.den).toNat)
          (x.den * 2 ^ (floorLog2 x.num.natAbs x.den - 52).toNat) : ℚ)
      * (2 : ℚ) ^ (floorLog2 x.num.natAbs x.den - 52)

/-- Line 179 in binary64: the product `heavyFraction * totalSenders` is rounded
before `std::floor`. -/
def heavyCountDouble (heavyFraction : ℚ) (totalSenders : Nat) : Nat :=
  max 1 (castU32 ⌊roundToDouble (heavyFraction * (totalSenders : ℚ))⌋)

/-- Line 180 with the heavy count of `heavyCountDouble`. -/
def lightCountDouble (heavyFraction : ℚ) (totalSenders : Nat) : Nat :=
  (totalSenders + u32 - heavyCountDouble heavyFraction totalSenders) % u32

/-- Line 183 in binary64; the literal `1e-6` is the binary64 number nearest to
1/1000000. -/
def r_l_double (meanLightIntervalSeconds : ℚ) : ℚ :=
  roundToDouble (1 / max (roundToDouble (1 / 1000000)) meanLightIntervalSeconds)

/-- Line 191 in binary64: the subtraction, the two divisions and the product
are each rounded. -/
def ratioDouble (heavyTrafficShare : ℚ) (lightCnt heavyCnt : Nat) : ℚ :=
  roundToDouble
    (roundToDouble
        (heavyTrafficShare
          / max (roundToDouble (1 / 1000000000)) (roundToDouble (1 - heavyTrafficShare)))
      * roundToDouble ((lightCnt : ℚ) / (heavyCnt : ℚ)))

/-- Lines 184-193 in binary64. -/
def r_h_double (heavyTrafficShare meanLightIntervalSeconds : ℚ)
    (lightCnt heavyCnt : Nat) : ℚ :=
  if lightCnt = 0 then r_l_double meanLightIntervalSeconds
  else max (roundToDouble (1 / 1000000))
    (roundToDouble
      (ratioDouble heavyTrafficShare lightCnt heavyCnt * r_l_double meanLightIntervalSeconds))

/-- Line 194 in binary64. -/
def meanHeavyIntervalSecondsDouble (heavyTrafficShare meanLightIntervalSeconds : ℚ)
    (lightCnt heavyCnt : Nat) : ℚ :=
  roundToDouble (1 / r_h_double heavyTrafficShare meanLightIntervalSeconds lightCnt heavyCnt)

/-! ## Theorems -/

/-! ### Sender counts and rates -/

theorem floor_share_lt (hf : ℚ) (total : Nat) (h0 : 0 < hf) (h1 : hf < 1)
    (ht : 0 < total) :
    0 ≤ ⌊hf * (total : ℚ)⌋ ∧ ⌊hf * (total : ℚ)⌋ < (total : ℤ) := by
  have htq : (0 : ℚ) < (total : ℚ) := by exact_mod_cast ht
  constructor
  · exact Int.floor_nonneg.mpr (le_of_lt (mul_pos h0 htq))
  · rw [Int.floor_lt]
    have : hf * (total : ℚ) < 1 * (total : ℚ) := mul_lt_mul_of_pos_right h1 htq
    simpa using this

/-- C2: for heavyFraction in (0,1) and 2 <= total (a `uint32_t`), the counts of
lines 179-180 satisfy heavyCount + lightCount = total and heavyCount >= 1. -/
theorem counts_partition (heavyFraction : ℚ) (total : Nat)
    (h0 : 0 < heavyFraction) (h1 : heavyFraction < 1) (h2 : 2 ≤ total)
    (hu : total < 2 ^ 32) :
    heavyCount heavyFraction total + lightCount heavyFraction total = total
      ∧ 1 ≤ heavyCount heavyFraction total := by
  obtain ⟨hk0, hk1⟩ := floor_share_lt heavyFraction total h0 h1 (by omega)
  have hk : castU32 ⌊heavyFraction * (total : ℚ)⌋ < total := by
    unfold castU32 u32
    have : (⌊heavyFraction * (total : ℚ)⌋).toNat < total := by omega
    exact lt_of_le_of_lt (Nat.mod_le _ _) this
  have hc : heavyCount heavyFraction total < total := by
    unfold heavyCount
    exact max_lt (by omega) hk
  have hc1 : 1 ≤ heavyCount heavyFraction total := le_max_left _ _
  refine ⟨?_, hc1⟩
  unfold lightCount u32
  have : (total + 2 ^ 32 - heavyCount heavyFraction total) % 2 ^ 32
      = total - heavyCount heavyFraction total := by
    have e : total + 2 ^ 32 - heavyCount heavyFraction total
        = (total - heavyCount heavyFraction total) + 2 ^ 32 := by omega
    rw [e, Nat.add_mod_right]
    exact Nat.mod_eq_of_lt (by omega)
  rw [this]
  omega

theorem counts_partition_witness :
    heavyCount (1 / 5) 10 + lightCount (1 / 5) 10 = 10 ∧ 1 ≤ heavyCount (1 / 5) 10 :=
  counts_partition (1 / 5) 10 (by norm_num) (by norm_num) (by norm_num) (by norm_num)

/-- The classification scenario with the arithmetic taken exactly: total = 10,
heavyFraction = 0.2, heavyTrafficShare = 0.8 and meanLightIntervalSeconds = 1.0
give heavyCount = 2, lightCount = 8, r_l = 1, ratio = 16, r_h = 16 and
meanHeavyIntervalSeconds = 0.0625 = 1/16. -/
theorem scenario_classification :
    heavyCount (2 / 10) 10 = 2 ∧ lightCount (2 / 10) 10 = 8 ∧ r_l 1 = 1
      ∧ ratio (8 / 10) (lightCount (2 / 10) 10) (heavyCount (2 / 10) 10) = 16
      ∧ r_h (8 / 10) 1 (lightCount (2 / 10) 10) (heavyCount (2 / 10) 10) = 16
      ∧ meanHeavyIntervalSeconds (8 / 10) 1 (lightCount (2 / 10) 10)
          (heavyCount (2 / 10) 10) = 625 / 10000 := by
  have hH : heavyCount (2 / 10) 10 = 2 := by
    simp [heavyCount, castU32, u32]
  have hL : lightCount (2 / 10) 10 = 8 := by
    simp [lightCount, hH, u32]
  have hr : r_l 1 = 1 := by
    norm_num [r_l]
  have hq : ratio (8 / 10) 8 2 = 16 := by
    norm_num [ratio]
  have hh : r_h (8 / 10) 1 8 2 = 16 := by
    unfold r_h
    rw [hq, hr]
    norm_num
  refine ⟨hH, hL, hr, ?_, ?_, ?_⟩
  · rw [hH, hL]; exact hq
  · rw [hH, hL]; exact hh
  · rw [hH, hL]
    unfold meanHeavyIntervalSeconds
    rw [hh]
    norm_num

/-- C1, as stated, fails: with heavyTrafficShare = 0.1, one heavy and one light
sender and meanLightIntervalSeconds = 10^6 the floor `1e-6` of line 192 replaces
`ratio * r_l`, both rates are `1e-6`, and the heavy share is 1/2, not 0.1. -/
theorem share_floor_counterexample :
    (0 : ℚ) < 1 / 10 ∧ (1 / 10 : ℚ) < 1 ∧ 1 ≤ (1 : Nat) ∧ 0 < (1 : Nat)
      ∧ (0 : ℚ) < 1000000
      ∧ heavyShare (1 / 10) 1000000 1 1 = 1 / 2
      ∧ ¬ (|heavyShare (1 / 10) 1000000 1 1 - 1 / 10| ≤ 1 / 1000000) := by
  have hr : r_l 1000000 = 1 / 1000000 := by
    norm_num [r_l]
  have hq : ratio (1 / 10) 1 1 = 1 / 9 := by
    norm_num [ratio]
  have hh : r_h (1 / 10) 1000000 1 1 = 1 / 1000000 := by
    norm_num [r_h, hq, hr]
  have hs : heavyShare (1 / 10) 1000000 1 1 = 1 / 2 := by
    norm_num [heavyShare, hh, hr]
  refine ⟨by norm_num, by norm_num, by norm_num, by norm_num, by norm_num, hs, ?_⟩
  rw [hs]
  norm_num [abs_le]

/-- When the floor of line 192 does not bind, the heavy share has the closed
form `S / (S + d)` with `d = max(1e-9, 1 - S)`. -/
theorem heavyShare_closed_form (S mean : ℚ) (L H : Nat)
    (hS0 : 0 < S) (hH : 1 ≤ H) (hL : 0 < L) (hm : 0 < mean)
    (hfloor : 1 / 1000000 ≤ ratio S L H * r_l mean) :
    heavyShare S mean L H = S / (S + max (1 / 1000000000) (1 - S)) := by
  have hd : (0 : ℚ) < max (1 / 1000000000) (1 - S) :=
    lt_of_lt_of_le (by norm_num) (le_max_left _ _)
  have hrl : 0 < r_l mean := by
    unfold r_l
    exact div_pos one_pos (lt_of_lt_of_le hm (le_max_right _ _))
  have hHq : (0 : ℚ) < (H : ℚ) := by exact_mod_cast hH
  have hLq : (0 : ℚ) < (L : ℚ) := by exact_mod_cast hL
  have hrh : r_h S mean L H = ratio S L H * r_l mean := by
    unfold r_h
    rw [if_neg (by omega)]
    exact max_eq_right hfloor
  unfold heavyShare
  rw [hrh]
  unfold ratio
  set d := max (1 / 1000000000 : ℚ) (1 - S) with hd_def
  set r := r_l mean with hr_def
  field_simp
  ring

/-- C1 (amended): for heavyTrafficShare in (0,1), heavyCount >= 1,
lightCount > 0 and meanLightIntervalSeconds > 0, whenever the floor of line 192
does not bind (`ratio * r_l >= 1e-6`), the heavy group's share of the aggregate
rate is within 1e-6 of heavyTrafficShare. -/
theorem share_within_tolerance (S mean : ℚ) (L H : Nat)
    (hS0 : 0 < S) (hS1 : S < 1) (hH : 1 ≤ H) (hL : 0 < L) (hm : 0 < mean)
    (hfloor : 1 / 1000000 ≤ ratio S L H * r_l mean) :
    |heavyShare S mean L H - S| ≤ 1 / 1000000 := by
  rw [heavyShare_closed_form S mean L H hS0 hH hL hm hfloor]
  have hd : (0 : ℚ) < max (1 / 1000000000) (1 - S) :=
    lt_of_lt_of_le (by norm_num) (le_max_left _ _)
  have hpos : 0 < S + max (1 / 1000000000) (1 - S) := by linarith
  have hge : 1 - S ≤ max (1 / 1000000000) (1 - S) := le_max_right _ _
  have hle : max (1 / 1000000000) (1 - S) ≤ 1 - S + 1 / 1000000000 := by
    apply max_le <;> linarith
  rw [abs_le]
  constructor
  · rw [le_sub_iff_add_le, le_div_iff₀ hpos]
    nlinarith
  · rw [sub_le_iff_le_add, div_le_iff₀ hpos]
    nlinarith

theorem share_within_tolerance_witness :
    |heavyShare (8 / 10) 1 8 2 - 8 / 10| ≤ 1 / 1000000 :=
  share_within_tolerance (8 / 10) 1 8 2 (by norm_num) (by norm_num) (by norm_num)
    (by norm_num) (by norm_num) (by norm_num [ratio, r_l])

/-! ### The depletion ledger: single calls -/

/-- The threshold of line 104 is `ceil(n / 2)`, that is `(n + 1) / 2` in
natural-number division. -/
theorem halfThreshold_eq (n : Nat) (hn : n < 2 ^ 32) : halfThreshold n = (n + 1) / 2 := by
  have hk : 2 * ((n + 1) / 2) ≤ n + 1 ∧ n ≤ 2 * ((n + 1) / 2) := by omega
  have hlt : (n + 1) / 2 < 2 ^ 32 := by omega
  generalize (n + 1) / 2 = k at hk hlt ⊢
  have hceil : ⌈(1 / 2 : ℚ) * (n : ℚ)⌉ = (k : ℤ) := by
    rw [Int.ceil_eq_iff, Int.cast_natCast]
    have h1 : (2 : ℚ) * (k : ℚ) ≤ (n : ℚ) + 1 := by exact_mod_cast hk.1
    have h2 : (n : ℚ) ≤ 2 * (k : ℚ) := by exact_mod_cast hk.2
    constructor <;> linarith
  unfold halfThreshold castU32 u32
  rw [hceil, Int.toNat_ofNat]
  exact Nat.mod_eq_of_lt hlt

theorem callback_of_not_guard (s : Ledger) (nodeId : Nat) (t : ℚ)
    (h : ¬ (nodeId < s.g_nodeDeathTimes.length ∧ s.g_nodeDeathTimes.getD nodeId 0 < 0)) :
    EnergyDepletedCallback s nodeId t = s := by
  unfold EnergyDepletedCallback
  rw [if_neg h]

theorem callback_deathTimes (s : Ledger) (nodeId : Nat) (t : ℚ)
    (h : nodeId < s.g_nodeDeathTimes.length ∧ s.g_nodeDeathTimes.getD nodeId 0 < 0) :
    (EnergyDepletedCallback s nodeId t).g_nodeDeathTimes
      = s.g_nodeDeathTimes.set nodeId t := by
  unfold EnergyDepletedCallback
  rw [if_pos h]
  dsimp only
  split_ifs <;> rfl

theorem callback_numNodes (s : Ledger) (nodeId : Nat) (t : ℚ) :
    (EnergyDepletedCallback s nodeId t).g_numNodesGlobal = s.g_numNodesGlobal := by
  unfold EnergyDepletedCallback
  dsimp only
  split_ifs <;> rfl

theorem callback_deadCount (s : Ledger) (nodeId : Nat) (t : ℚ)
    (h : nodeId < s.g_nodeDeathTimes.length ∧ s.g_nodeDeathTimes.getD nodeId 0 < 0) :
    (EnergyDepletedCallback s nodeId t).g_deadCount = (s.g_deadCount + 1) % u32 := by
  unfold EnergyDepletedCallback
  rw [if_pos h]
  dsimp only
  split_ifs <;> rfl

theorem callback_length (s : Ledger) (nodeId : Nat) (t : ℚ) :
    (EnergyDepletedCallback s nodeId t).g_nodeDeathTimes.length
      = s.g_nodeDeathTimes.length := by
  by_cases h : nodeId < s.g_nodeDeathTimes.length ∧ s.g_nodeDeathTimes.getD nodeId 0 < 0
  · rw [callback_deathTimes s nodeId t h, List.length_set]
  · rw [callback_of_not_guard s nodeId t h]

theorem getD_set_self (l : List ℚ) (i : Nat) (t : ℚ) (h : i < l.length) :
    (l.set i t).getD i 0 = t := by
  simp [List.getD, h]

theorem getD_set_other (l : List ℚ) (i j : Nat) (t : ℚ) (h : i ≠ j) :
    (l.set i t).getD j 0 = l.getD j 0 := by
  simp [List.getD, List.getElem?_set_ne h]

/-- After a call at a non-negative time the notified node is not below zero any
more, whatever the state was. -/
theorem callback_marks (s : Ledger) (nodeId : Nat) (t : ℚ) (ht : 0 ≤ t)
    (hin : nodeId < s.g_nodeDeathTimes.length) :
    0 ≤ (EnergyDepletedCallback s nodeId t).g_nodeDeathTimes.getD nodeId 0 := by
  by_cases h : nodeId < s.g_nodeDeathTimes.length ∧ s.g_nodeDeathTimes.getD nodeId 0 < 0
  · rw [callback_deathTimes s nodeId t h, getD_set_self _ _ _ hin]
    exact ht
  · rw [callback_of_not_guard s nodeId t h]
    by_contra hc
    exact h ⟨hin, lt_of_not_le hc⟩

/-- C3, as stated, fails: in the ledger reached after node 0 of a one-node
network was depleted at time 5, calls for node 0 at times 7 and 9 leave its
death time at 5, not at 7. -/
theorem idempotence_counterexample :
    (0 : Nat) < (runDepletions (resetLedger 1) [(0, 5)]).g_nodeDeathTimes.length
      ∧ (0 : ℚ) ≤ 7 ∧ (7 : ℚ) < 9
      ∧ (EnergyDepletedCallback
            (EnergyDepletedCallback (runDepletions (resetLedger 1) [(0, 5)]) 0 7) 0 9
          ).g_nodeDeathTimes.getD 0 0 = 5
      ∧ (EnergyDepletedCallback
            (EnergyDepletedCallback (runDepletions (resetLedger 1) [(0, 5)]) 0 7) 0 9
          ).g_nodeDeathTimes.getD 0 0 ≠ 7 := by
  have hs : runDepletions (resetLedger 1) [(0, 5)]
      = { g_nodeDeathTimes := [5], g_numNodesGlobal := 1, g_allDeadRecorded := true,
          g_timeAllDead := 5, g_deadCount := 1, g_timeNst50 := 5 } := by
    simp [runDepletions, EnergyDepletedCallback, resetLedger, u32,
      halfThreshold_eq 1 (by norm_num)]
  rw [hs]
  norm_num [EnergyDepletedCallback]

/-- C3 (amended): for every ledger state, in-range nodeId and times
0 <= t1 < t2, the second of two calls for nodeId changes nothing in the ledger;
the node's death time after both calls is t1 when the node was not yet
depleted before the first call, and its earlier death time otherwise. -/
theorem recordDepletion_idempotent (s : Ledger) (nodeId : Nat) (t1 t2 : ℚ)
    (hin : nodeId < s.g_nodeDeathTimes.length) (h1 : 0 ≤ t1) (_h12 : t1 < t2) :
    EnergyDepletedCallback (EnergyDepletedCallback s nodeId t1) nodeId t2
        = EnergyDepletedCallback s nodeId t1
      ∧ (s.g_nodeDeathTimes.getD nodeId 0 < 0 →
          (EnergyDepletedCallback (EnergyDepletedCallback s nodeId t1) nodeId t2
            ).g_nodeDeathTimes.getD nodeId 0 = t1)
      ∧ (0 ≤ s.g_nodeDeathTimes.getD nodeId 0 →
          (EnergyDepletedCallback (EnergyDepletedCallback s nodeId t1) nodeId t2
            ).g_nodeDeathTimes.getD nodeId 0 = s.g_nodeDeathTimes.getD nodeId 0) := by
  have hnoop : EnergyDepletedCallback (EnergyDepletedCallback s nodeId t1) nodeId t2
      = EnergyDepletedCallback s nodeId t1 := by
    apply callback_of_not_guard
    intro hg
    exact absurd hg.2 (not_lt.mpr (callback_marks s nodeId t1 h1 hin))
  refine ⟨hnoop, ?_, ?_⟩
  · intro hneg
    rw [hnoop, callback_deathTimes s nodeId t1 ⟨hin, hneg⟩, getD_set_self _ _ _ hin]
  · intro hpos
    rw [hnoop, callback_of_not_guard s nodeId t1 (fun hg => absurd hg.2 (not_lt.mpr hpos))]

theorem recordDepletion_idempotent_witness :
    EnergyDepletedCallback (EnergyDepletedCallback (resetLedger 3) 1 4) 1 6
        = EnergyDepletedCallback (resetLedger 3) 1 4
      ∧ ((resetLedger 3).g_nodeDeathTimes.getD 1 0 < 0 →
          (EnergyDepletedCallback (EnergyDepletedCallback (resetLedger 3) 1 4) 1 6
            ).g_nodeDeathTimes.getD 1 0 = 4)
      ∧ (0 ≤ (resetLedger 3).g_nodeDeathTimes.getD 1 0 →
          (EnergyDepletedCallback (EnergyDepletedCallback (resetLedger 3) 1 4) 1 6
            ).g_nodeDeathTimes.getD 1 0 = (resetLedger 3).g_nodeDeathTimes.getD 1 0) :=
  recordDepletion_idempotent (resetLedger 3) 1 4 6 (by decide) (by norm_num) (by norm_num)

/-! ### The depletion ledger: sequences of calls -/

/-- The ledger after a call whose guard (line 100) holds, field by field. -/
theorem callback_of_guard (s : Ledger) (nodeId : Nat) (t : ℚ)
    (h : nodeId < s.g_nodeDeathTimes.length ∧ s.g_nodeDeathTimes.getD nodeId 0 < 0) :
    EnergyDepletedCallback s nodeId t =
      { g_nodeDeathTimes := s.g_nodeDeathTimes.set nodeId t
        g_numNodesGlobal := s.g_numNodesGlobal
        g_allDeadRecorded :=
          s.g_allDeadRecorded || decide ((s.g_deadCount + 1) % u32 = s.g_numNodesGlobal)
        g_timeAllDead :=
          if (s.g_deadCount + 1) % u32 = s.g_numNodesGlobal ∧ s.g_allDeadRecorded = false
          then t else s.g_timeAllDead
        g_deadCount := (s.g_deadCount + 1) % u32
        g_timeNst50 :=
          if halfThreshold s.g_numNodesGlobal ≤ (s.g_deadCount + 1) % u32 ∧ s.g_timeNst50 ≤ 0
          then t else s.g_timeNst50 } := by
  unfold EnergyDepletedCallback
  rw [if_pos h]
  dsimp only
  cases hflag : s.g_allDeadRecorded <;> split_ifs <;> simp_all

theorem runDepletions_append (s : Ledger) (pre post : List (Nat × ℚ)) :
    runDepletions s (pre ++ post) = runDepletions (runDepletions s pre) post := by
  unfold runDepletions
  rw [List.foldl_append]

theorem runDepletions_snoc (s : Ledger) (pre : List (Nat × ℚ)) (e : Nat × ℚ) :
    runDepletions s (pre ++ [e]) = EnergyDepletedCallback (runDepletions s pre) e.1 e.2 := by
  rw [runDepletions_append]
  rfl

theorem survivalTime50_eq_some (s : Ledger) (v : ℚ) :
    survivalTime50 s = some v ↔ 0 < s.g_timeNst50 ∧ s.g_timeNst50 = v := by
  unfold survivalTime50
  split_ifs with h
  · simp only [reduceCtorEq, false_iff, not_and]
    intro hpos
    exact absurd hpos (not_lt.mpr h)
  · simp only [Option.some.injEq, iff_and_self]
    intro _
    exact lt_of_not_le h

theorem survivalTimeAll_eq_some (s : Ledger) (v : ℚ) :
    survivalTimeAll s = some v ↔ s.g_allDeadRecorded = true ∧ s.g_timeAllDead = v := by
  unfold survivalTimeAll
  cases s.g_allDeadRecorded <;> simp

theorem callback_keeps_nst50 (s : Ledger) (nodeId : Nat) (t : ℚ) (h : 0 < s.g_timeNst50) :
    (EnergyDepletedCallback s nodeId t).g_timeNst50 = s.g_timeNst50 := by
  by_cases hg : nodeId < s.g_nodeDeathTimes.length ∧ s.g_nodeDeathTimes.getD nodeId 0 < 0
  · rw [callback_of_guard s nodeId t hg]
    dsimp only
    rw [if_neg]
    intro hc
    exact absurd h (not_lt.mpr hc.2)
  · rw [callback_of_not_guard s nodeId t hg]

theorem callback_keeps_allDead (s : Ledger) (nodeId : Nat) (t : ℚ)
    (h : s.g_allDeadRecorded = true) :
    (EnergyDepletedCallback s nodeId t).g_allDeadRecorded = true
      ∧ (EnergyDepletedCallback s nodeId t).g_timeAllDead = s.g_timeAllDead := by
  by_cases hg : nodeId < s.g_nodeDeathTimes.length ∧ s.g_nodeDeathTimes.getD nodeId 0 < 0
  · rw [callback_of_guard s nodeId t hg]
    simp [h]
  · rw [callback_of_not_guard s nodeId t hg]
    exact ⟨h, rfl⟩

theorem run_keeps_nst50 (evs : List (Nat × ℚ)) (s : Ledger) (h : 0 < s.g_timeNst50) :
    (runDepletions s evs).g_timeNst50 = s.g_timeNst50 := by
  induction evs generalizing s with
  | nil => rfl
  | cons e rest ih =>
    have hstep := callback_keeps_nst50 s e.1 e.2 h
    have := ih (EnergyDepletedCallback s e.1 e.2) (by rw [hstep]; exact h)
    simpa [runDepletions, hstep] using this

theorem run_keeps_allDead (evs : List (Nat × ℚ)) (s : Ledger)
    (h : s.g_allDeadRecorded = true) :
    (runDepletions s evs).g_allDeadRecorded = true
      ∧ (runDepletions s evs).g_timeAllDead = s.g_timeAllDead := by
  induction evs generalizing s with
  | nil => exact ⟨h, rfl⟩
  | cons e rest ih =>
    obtain ⟨h1, h2⟩ := callback_keeps_allDead s e.1 e.2 h
    obtain ⟨h3, h4⟩ := ih (EnergyDepletedCallback s e.1 e.2) h1
    exact ⟨h3, h4.trans h2⟩

/-- C10: latch-once. From any ledger `s0` and for any calls `pre` followed by
any calls `post`: if survivalTime50 is set after `pre` it has the same value
after `pre ++ post`, and likewise survivalTimeAll. -/
theorem survival_times_latch (s0 : Ledger) (pre post : List (Nat × ℚ)) (v50 vAll : ℚ) :
    (survivalTime50 (runDepletions s0 pre) = some v50 →
        survivalTime50 (runDepletions s0 (pre ++ post)) = some v50)
      ∧ (survivalTimeAll (runDepletions s0 pre) = some vAll →
        survivalTimeAll (runDepletions s0 (pre ++ post)) = some vAll) := by
  rw [runDepletions_append]
  constructor
  · intro h
    rw [survivalTime50_eq_some] at h ⊢
    have := run_keeps_nst50 post _ h.1
    rw [this]
    exact h
  · intro h
    rw [survivalTimeAll_eq_some] at h ⊢
    obtain ⟨h1, h2⟩ := run_keeps_allDead post _ h.1
    exact ⟨h1, h2.trans h.2⟩

theorem survival_times_latch_witness :
    survivalTime50 (runDepletions (resetLedger 2) ([(0, 1), (1, 5)] ++ [(0, 9), (7, 11)]))
        = some 1
      ∧ survivalTimeAll
          (runDepletions (resetLedger 2) ([(0, 1), (1, 5)] ++ [(0, 9), (7, 11)])) = some 5 :=
  ⟨(survival_times_latch (resetLedger 2) [(0, 1), (1, 5)] [(0, 9), (7, 11)] 1 5).1
      (by norm_num [runDepletions, EnergyDepletedCallback, resetLedger, u32,
            halfThreshold_eq 2 (by norm_num), survivalTime50]),
   (survival_times_latch (resetLedger 2) [(0, 1), (1, 5)] [(0, 9), (7, 11)] 1 5).2
      (by norm_num [runDepletions, EnergyDepletedCallback, resetLedger, u32,
            halfThreshold_eq 2 (by norm_num), survivalTimeAll])⟩

/-! ### The invariant of the ledger -/

theorem countDepleted_le (l : List ℚ) : countDepleted l ≤ l.length :=
  List.countP_le_length _

theorem countDepleted_set (l : List ℚ) (i : Nat) (t : ℚ) (hi : i < l.length)
    (hneg : l.getD i 0 < 0) (ht : 0 ≤ t) :
    countDepleted (l.set i t) = countDepleted l + 1 := by
  induction l generalizing i with
  | nil => simp at hi
  | cons a rest ih =>
    cases i with
    | zero =>
      have ha : ¬ (0 ≤ a) := by simpa [List.getD] using hneg
      simp [countDepleted, List.countP_cons, ht, ha]
    | succ j =>
      have hj : j < rest.length := by simpa using hi
      have hnegj : rest.getD j 0 < 0 := by simpa [List.getD] using hneg
      have := ih j hj hnegj
      simp only [countDepleted] at this ⊢
      simp only [List.set_cons_succ, List.countP_cons, this]
      omega

theorem countDepleted_lt_of_neg (l : List ℚ) (i : Nat) (hi : i < l.length)
    (hneg : l.getD i 0 < 0) : countDepleted l < l.length := by
  have h := countDepleted_set l i 0 hi hneg le_rfl
  have h2 := countDepleted_le (l.set i 0)
  rw [List.length_set] at h2
  omega

theorem countDepleted_eq_length_iff (l : List ℚ) :
    countDepleted l = l.length ↔ ∀ i, i < l.length → 0 ≤ l.getD i 0 := by
  constructor
  · intro h i hi
    by_contra hc
    have := countDepleted_lt_of_neg l i hi (lt_of_not_le hc)
    omega
  · intro h
    unfold countDepleted
    rw [List.countP_eq_length]
    intro a ha
    obtain ⟨k, hk, rfl⟩ := List.getElem_of_mem ha
    have := h k hk
    simpa [List.getD, hk] using this

theorem getD_replicate_neg (n i : Nat) : (List.replicate n (-1 : ℚ)).getD i 0 < 0 ∨
    n ≤ i := by
  by_cases h : i < n
  · left
    simp [List.getD, List.getElem?_replicate, h]
  · right
    omega

theorem ledgerInv_reset (n : Nat) : LedgerInv n [] (resetLedger n) where
  numNodes := rfl
  length := by simp [resetLedger]
  count := by
    norm_num [resetLedger, countDepleted, List.countP_replicate]
  flag := by
    simp only [resetLedger, Bool.false_eq_true, false_iff, not_and]
    omega
  marked := by
    intro i hi
    have h := getD_replicate_neg n i
    simp only [resetLedger, List.not_mem_nil, false_and, exists_false, iff_false, not_le]
    rcases h with h | h
    · exact h
    · omega
  nst50 := Or.inl rfl

theorem ledgerInv_step (n : Nat) (hn : n < 2 ^ 32) (evs : List (Nat × ℚ)) (s : Ledger)
    (inv : LedgerInv n evs s) (e : Nat × ℚ) (he : 0 ≤ e.2) :
    LedgerInv n (evs ++ [e]) (EnergyDepletedCallback s e.1 e.2) := by
  by_cases hg : e.1 < s.g_nodeDeathTimes.length ∧ s.g_nodeDeathTimes.getD e.1 0 < 0
  · have hlt : countDepleted s.g_nodeDeathTimes < n := by
      have := countDepleted_lt_of_neg _ _ hg.1 hg.2
      rw [inv.length] at this
      exact this
    have hdc : (s.g_deadCount + 1) % u32 = s.g_deadCount + 1 := by
      apply Nat.mod_eq_of_lt
      rw [inv.count]
      unfold u32
      omega
    have hflag : s.g_allDeadRecorded = false := by
      cases hf : s.g_allDeadRecorded
      · rfl
      · have := (inv.flag.mp hf).1
        rw [inv.count] at this
        omega
    rw [callback_of_guard s e.1 e.2 hg]
    refine ⟨inv.numNodes, ?_, ?_, ?_, ?_, ?_⟩
    · simp only [List.length_set]
      exact inv.length
    · simp only
      rw [hdc, countDepleted_set _ _ _ hg.1 hg.2 he, inv.count]
    · simp only
      rw [hdc, hflag, inv.numNodes]
      simp only [Bool.false_or, decide_eq_true_eq, iff_self_and]
      intro _
      omega
    · intro i hi
      simp only
      by_cases hie : e.1 = i
      · subst hie
        rw [getD_set_self _ _ _ hg.1]
        simp only [he, true_iff]
        exact ⟨e, by simp, rfl⟩
      · rw [getD_set_other _ _ _ _ hie, inv.marked i hi]
        constructor
        · rintro ⟨x, hx, rfl⟩
          exact ⟨x, by simp [hx], rfl⟩
        · rintro ⟨x, hx, rfl⟩
          rw [List.mem_append, List.mem_singleton] at hx
          rcases hx with hx | hx
          · exact ⟨x, hx, rfl⟩
          · exact absurd (by rw [hx]) hie
    · simp only
      split_ifs
      · exact Or.inr ⟨e, by simp, rfl⟩
      · rcases inv.nst50 with h | ⟨x, hx, h⟩
        · exact Or.inl h
        · exact Or.inr ⟨x, by simp [hx], h⟩
  · rw [callback_of_not_guard s e.1 e.2 hg]
    refine ⟨inv.numNodes, inv.length, inv.count, inv.flag, ?_, ?_⟩
    · intro i hi
      rw [inv.marked i hi]
      constructor
      · rintro ⟨x, hx, rfl⟩
        exact ⟨x, by simp [hx], rfl⟩
      · rintro ⟨x, hx, rfl⟩
        rw [List.mem_append, List.mem_singleton] at hx
        rcases hx with hx | hx
        · exact ⟨x, hx, rfl⟩
        · subst hx
          rw [← inv.marked x.1 hi]
          by_contra hc
          exact hg ⟨by rw [inv.length]; exact hi, lt_of_not_le hc⟩
    · rcases inv.nst50 with h | ⟨x, hx, h⟩
      · exact Or.inl h
      · exact Or.inr ⟨x, by simp [hx], h⟩

theorem ledgerInv_run (n : Nat) (hn : n < 2 ^ 32) (evs : List (Nat × ℚ))
    (hnn : ∀ e ∈ evs, 0 ≤ e.2) : LedgerInv n evs (runDepletions (resetLedger n) evs) := by
  induction evs using List.reverseRecOn with
  | nil => exact ledgerInv_reset n
  | append_singleton pre e ih =>
    rw [runDepletions_snoc]
    apply ledgerInv_step n hn pre _ (ih fun x hx => hnn x (by simp [hx])) e
    exact hnn e (by simp)

/-- While a node is still below zero the all-dead flag is not set. -/
theorem flag_false_of_guard (n : Nat) (evs : List (Nat × ℚ)) (s : Ledger)
    (inv : LedgerInv n evs s) (nodeId : Nat)
    (hg : nodeId < s.g_nodeDeathTimes.length ∧ s.g_nodeDeathTimes.getD nodeId 0 < 0) :
    s.g_allDeadRecorded = false ∧ s.g_deadCount < n := by
  have hlt : countDepleted s.g_nodeDeathTimes < n := by
    have := countDepleted_lt_of_neg _ _ hg.1 hg.2
    rw [inv.length] at this
    exact this
  refine ⟨?_, by rw [inv.count]; exact hlt⟩
  cases hf : s.g_allDeadRecorded
  · rfl
  · have := (inv.flag.mp hf).1
    rw [inv.count] at this
    omega

/-! ### Order of the two survival times -/

theorem nst50_le_allDead (n : Nat) (hn : n < 2 ^ 32) (evs : List (Nat × ℚ))
    (hnn : ∀ e ∈ evs, 0 ≤ e.2) (hsorted : evs.Pairwise (fun a b => a.2 ≤ b.2))
    (hflag : (runDepletions (resetLedger n) evs).g_allDeadRecorded = true) :
    (runDepletions (resetLedger n) evs).g_timeNst50
      ≤ (runDepletions (resetLedger n) evs).g_timeAllDead := by
  induction evs using List.reverseRecOn with
  | nil => simp [runDepletions, resetLedger] at hflag
  | append_singleton pre e ih =>
    have hnnpre : ∀ x ∈ pre, 0 ≤ x.2 := fun x hx => hnn x (by simp [hx])
    have he : 0 ≤ e.2 := hnn e (by simp)
    rw [List.pairwise_append] at hsorted
    obtain ⟨hspre, _, hcross⟩ := hsorted
    have inv := ledgerInv_run n hn pre hnnpre
    rw [runDepletions_snoc] at hflag ⊢
    set s := runDepletions (resetLedger n) pre with hs
    by_cases hg : e.1 < s.g_nodeDeathTimes.length ∧ s.g_nodeDeathTimes.getD e.1 0 < 0
    · obtain ⟨hff, _⟩ := flag_false_of_guard n pre s inv e.1 hg
      rw [callback_of_guard s e.1 e.2 hg] at hflag ⊢
      simp only [hff, Bool.false_or, decide_eq_true_eq] at hflag
      simp only [hflag, hff, and_self, if_true]
      split_ifs
      · exact le_rfl
      · rcases inv.nst50 with h | ⟨x, hx, h⟩
        · rw [h]; exact he
        · rw [h]; exact hcross x hx e (by simp)
    · rw [callback_of_not_guard s e.1 e.2 hg] at hflag ⊢
      exact ih hnnpre hspre hflag

/-- C4: from the freshly reset ledger (for a `uint32_t` node count), after any
notifications with non-negative times delivered in non-decreasing time order,
whenever survivalTime50 and survivalTimeAll are both set,
survivalTime50 <= survivalTimeAll. -/
theorem survival50_le_survivalAll (n : Nat) (hn : n < 2 ^ 32) (evs : List (Nat × ℚ))
    (hnn : ∀ e ∈ evs, 0 ≤ e.2) (hsorted : evs.Pairwise (fun a b => a.2 ≤ b.2))
    (v50 vAll : ℚ)
    (h50 : survivalTime50 (runDepletions (resetLedger n) evs) = some v50)
    (hAll : survivalTimeAll (runDepletions (resetLedger n) evs) = some vAll) :
    v50 ≤ vAll := by
  rw [survivalTime50_eq_some] at h50
  rw [survivalTimeAll_eq_some] at hAll
  have := nst50_le_allDead n hn evs hnn hsorted hAll.1
  rw [h50.2, hAll.2] at this
  exact this

theorem survival50_le_survivalAll_witness :
    (3 : Nat) < 2 ^ 32
      ∧ survivalTime50 (runDepletions (resetLedger 3) [(0, 1), (1, 2), (2, 3)]) = some 2
      ∧ survivalTimeAll (runDepletions (resetLedger 3) [(0, 1), (1, 2), (2, 3)]) = some 3
      ∧ (2 : ℚ) ≤ 3 :=
  have h50 : survivalTime50 (runDepletions (resetLedger 3) [(0, 1), (1, 2), (2, 3)])
      = some 2 := by
    norm_num [runDepletions, EnergyDepletedCallback, resetLedger, u32,
      halfThreshold_eq 3 (by norm_num), survivalTime50]
  have hAll : survivalTimeAll (runDepletions (resetLedger 3) [(0, 1), (1, 2), (2, 3)])
      = some 3 := by
    norm_num [runDepletions, EnergyDepletedCallback, resetLedger, u32,
      halfThreshold_eq 3 (by norm_num), survivalTimeAll]
  ⟨by norm_num, h50, hAll,
    survival50_le_survivalAll 3 (by norm_num) [(0, 1), (1, 2), (2, 3)]
      (by norm_num) (by norm_num) 2 3 h50 hAll⟩

/-! ### The all-dead survival time -/

theorem allDepleted_iff_count (n : Nat) (evs : List (Nat × ℚ)) (s : Ledger)
    (inv : LedgerInv n evs s) :
    (∀ i, i < n → isDepleted s i) ↔ s.g_deadCount = n := by
  rw [inv.count]
  have h := countDepleted_eq_length_iff s.g_nodeDeathTimes
  rw [inv.length] at h
  rw [h]
  unfold isDepleted
  rw [inv.length]
  constructor
  · intro hall i hi
    exact (hall i hi).2
  · intro hall i hi
    exact ⟨hi, hall i hi⟩

/-- C9: for 1 <= totalNodes (a `uint32_t`) and any notifications with
non-negative times applied to the freshly reset ledger, survivalTimeAll is set
if and only if every node is recorded depleted (that is, has been notified),
and its value is the time of the notification that depleted the last remaining
node; otherwise it is unset. -/
theorem survivalAll_iff_all_depleted (n : Nat) (h1 : 1 ≤ n) (hn : n < 2 ^ 32)
    (evs : List (Nat × ℚ)) (hnn : ∀ e ∈ evs, 0 ≤ e.2) :
    ((survivalTimeAll (runDepletions (resetLedger n) evs)).isSome = true
        ↔ ∀ i, i < n → isDepleted (runDepletions (resetLedger n) evs) i)
      ∧ (survivalTimeAll (runDepletions (resetLedger n) evs) = none
        ↔ ¬ ∀ i, i < n → isDepleted (runDepletions (resetLedger n) evs) i)
      ∧ (∀ i, i < n →
          (isDepleted (runDepletions (resetLedger n) evs) i ↔ ∃ e ∈ evs, e.1 = i))
      ∧ (∀ pre e post, evs = pre ++ e :: post →
          (¬ ∀ i, i < n → isDepleted (runDepletions (resetLedger n) pre) i) →
          (∀ i, i < n → isDepleted (runDepletions (resetLedger n) (pre ++ [e])) i) →
          survivalTimeAll (runDepletions (resetLedger n) evs) = some e.2) := by
  have inv := ledgerInv_run n hn evs hnn
  have hiff : (runDepletions (resetLedger n) evs).g_allDeadRecorded = true
      ↔ ∀ i, i < n → isDepleted (runDepletions (resetLedger n) evs) i := by
    rw [allDepleted_iff_count n evs _ inv, inv.flag]
    constructor
    · exact fun h => h.1
    · exact fun h => ⟨h, h1⟩
  refine ⟨?_, ?_, ?_, ?_⟩
  · rw [← hiff]
    unfold survivalTimeAll
    cases (runDepletions (resetLedger n) evs).g_allDeadRecorded <;> simp
  · rw [← hiff]
    unfold survivalTimeAll
    cases (runDepletions (resetLedger n) evs).g_allDeadRecorded <;> simp
  · intro i hi
    unfold isDepleted
    rw [inv.length, ← inv.marked i hi]
    exact ⟨fun h => h.2, fun h => ⟨hi, h⟩⟩
  · intro pre e post hsplit hbefore hafter
    have hnnpre : ∀ x ∈ pre, 0 ≤ x.2 := fun x hx => hnn x (by simp [hsplit, hx])
    have he : 0 ≤ e.2 := hnn e (by simp [hsplit])
    have invpre := ledgerInv_run n hn pre hnnpre
    have invsnoc := ledgerInv_step n hn pre _ invpre e he
    rw [runDepletions_snoc] at hafter
    rw [allDepleted_iff_count n pre _ invpre] at hbefore
    rw [allDepleted_iff_count n (pre ++ [e]) _ invsnoc] at hafter
    set s := runDepletions (resetLedger n) pre with hs
    have hg : e.1 < s.g_nodeDeathTimes.length ∧ s.g_nodeDeathTimes.getD e.1 0 < 0 := by
      by_contra hc
      rw [callback_of_not_guard s e.1 e.2 hc] at hafter
      exact hbefore hafter
    obtain ⟨hff, _⟩ := flag_false_of_guard n pre s invpre e.1 hg
    have hstep : (EnergyDepletedCallback s e.1 e.2).g_allDeadRecorded = true
        ∧ (EnergyDepletedCallback s e.1 e.2).g_timeAllDead = e.2 := by
      rw [callback_of_guard s e.1 e.2 hg] at hafter ⊢
      simp only at hafter
      rw [← invpre.numNodes] at hafter
      simp [hafter, hff]
    have hrun : runDepletions (resetLedger n) evs
        = runDepletions (EnergyDepletedCallback s e.1 e.2) post := by
      rw [hsplit, show pre ++ e :: post = (pre ++ [e]) ++ post by simp,
        runDepletions_append, runDepletions_snoc]
    obtain ⟨k1, k2⟩ := run_keeps_allDead post _ hstep.1
    rw [survivalTimeAll_eq_some, hrun]
    exact ⟨k1, k2.trans hstep.2⟩

theorem survivalAll_iff_all_depleted_witness :
    ((survivalTimeAll (runDepletions (resetLedger 2) [(0, 1), (1, 4), (0, 6)])).isSome = true
        ↔ ∀ i, i < 2 → isDepleted (runDepletions (resetLedger 2) [(0, 1), (1, 4), (0, 6)]) i)
      ∧ survivalTimeAll (runDepletions (resetLedger 2) [(0, 1), (1, 4), (0, 6)]) = some 4 :=
  have h := survivalAll_iff_all_depleted 2 (by norm_num) (by norm_num)
    [(0, 1), (1, 4), (0, 6)] (by norm_num)
  ⟨h.1, by
    norm_num [runDepletions, EnergyDepletedCallback, resetLedger, u32,
      halfThreshold_eq 2 (by norm_num), survivalTimeAll]⟩

/-! ### The 50 % survival time -/

theorem nst50_pos_iff (n : Nat) (h1 : 1 ≤ n) (hn : n < 2 ^ 32) (evs : List (Nat × ℚ))
    (hpos : ∀ e ∈ evs, 0 < e.2) :
    0 < (runDepletions (resetLedger n) evs).g_timeNst50
      ↔ halfThreshold n ≤ (runDepletions (resetLedger n) evs).g_deadCount := by
  induction evs using List.reverseRecOn with
  | nil =>
    have : 0 < halfThreshold n := by rw [halfThreshold_eq n hn]; omega
    simp only [runDepletions, resetLedger, List.foldl_nil, lt_self_iff_false, false_iff]
    omega
  | append_singleton pre e ih =>
    have hpospre : ∀ x ∈ pre, 0 < x.2 := fun x hx => hpos x (by simp [hx])
    have he : 0 < e.2 := hpos e (by simp)
    have inv := ledgerInv_run n hn pre (fun x hx => le_of_lt (hpospre x hx))
    have ih := ih hpospre
    rw [runDepletions_snoc]
    set s := runDepletions (resetLedger n) pre with hs
    by_cases hg : e.1 < s.g_nodeDeathTimes.length ∧ s.g_nodeDeathTimes.getD e.1 0 < 0
    · obtain ⟨_, hlt⟩ := flag_false_of_guard n pre s inv e.1 hg
      have hdc : (s.g_deadCount + 1) % u32 = s.g_deadCount + 1 := by
        apply Nat.mod_eq_of_lt
        unfold u32
        omega
      rw [callback_of_guard s e.1 e.2 hg]
      simp only [hdc, inv.numNodes]
      split_ifs with hc
      · exact ⟨fun _ => hc.1, fun _ => he⟩
      · rw [not_and_or, not_le, not_le] at hc
        rcases hc with hc | hc
        · constructor
          · intro h
            have := ih.mp h
            omega
          · intro h
            omega
        · exact ⟨fun _ => by have := ih.mp hc; omega, fun _ => hc⟩
    · rw [callback_of_not_guard s e.1 e.2 hg]
      exact ih

/-- The statement of C8 holds when every notification comes at a strictly
positive time: the 50 % survival time is set exactly when the depleted count
has reached `ceil(0.5 * n)`, and its value is the time of the notification at
which the count first reached that threshold. -/
theorem survival50_positive_times (n : Nat) (h1 : 1 ≤ n) (hn : n < 2 ^ 32)
    (evs : List (Nat × ℚ)) (hpos : ∀ e ∈ evs, 0 < e.2) :
    ((survivalTime50 (runDepletions (resetLedger n) evs)).isSome = true
        ↔ halfThreshold n ≤ (runDepletions (resetLedger n) evs).g_deadCount)
      ∧ (∀ pre e post, evs = pre ++ e :: post →
          (runDepletions (resetLedger n) pre).g_deadCount < halfThreshold n →
          halfThreshold n ≤ (runDepletions (resetLedger n) (pre ++ [e])).g_deadCount →
          survivalTime50 (runDepletions (resetLedger n) evs) = some e.2) := by
  constructor
  · rw [← nst50_pos_iff n h1 hn evs hpos]
    unfold survivalTime50
    split_ifs with h
    · simp only [Option.isSome_none, Bool.false_eq_true, false_iff, not_lt]
      exact h
    · simp only [Option.isSome_some, true_iff]
      exact lt_of_not_le h
  · intro pre e post hsplit hbefore hafter
    have hpospre : ∀ x ∈ pre, 0 < x.2 := fun x hx => hpos x (by simp [hsplit, hx])
    have he : 0 < e.2 := hpos e (by simp [hsplit])
    have hold := nst50_pos_iff n h1 hn pre hpospre
    have inv := ledgerInv_run n hn pre (fun x hx => le_of_lt (hpospre x hx))
    rw [runDepletions_snoc] at hafter
    set s := runDepletions (resetLedger n) pre with hs
    have hg : e.1 < s.g_nodeDeathTimes.length ∧ s.g_nodeDeathTimes.getD e.1 0 < 0 := by
      by_contra hc
      rw [callback_of_not_guard s e.1 e.2 hc] at hafter
      omega
    have hunset : s.g_timeNst50 ≤ 0 := by
      by_contra hc
      have := hold.mp (lt_of_not_le hc)
      omega
    have hstep : (EnergyDepletedCallback s e.1 e.2).g_timeNst50 = e.2 := by
      rw [callback_of_guard s e.1 e.2 hg] at hafter ⊢
      simp only at hafter
      rw [← inv.numNodes] at hafter
      simp only
      rw [if_pos ⟨hafter, hunset⟩]
    have hrun : runDepletions (resetLedger n) evs
        = runDepletions (EnergyDepletedCallback s e.1 e.2) post := by
      rw [hsplit, show pre ++ e :: post = (pre ++ [e]) ++ post by simp,
        runDepletions_append, runDepletions_snoc]
    rw [survivalTime50_eq_some, hrun,
      run_keeps_nst50 post _ (by rw [hstep]; exact he), hstep]
    exact ⟨he, rfl⟩

/-! ### The flow-statistics reduction -/

theorem foldl_accumulate_tx (stats : List FlowStats) (a : FlowTotals)
    (ha : a.totalTxPackets < u32) :
    (stats.foldl accumulate a).totalTxPackets
      = (a.totalTxPackets + (stats.map FlowStats.txPackets).sum) % u32 := by
  induction stats generalizing a with
  | nil => simp [Nat.mod_eq_of_lt ha]
  | cons f rest ih =>
    have hlt : (accumulate a f).totalTxPackets < u32 := Nat.mod_lt _ (by unfold u32; norm_num)
    rw [List.foldl_cons, ih _ hlt]
    simp only [accumulate, List.map_cons, List.sum_cons, Nat.mod_add_mod, Nat.add_assoc]

theorem foldl_accumulate_rx (stats : List FlowStats) (a : FlowTotals)
    (ha : a.totalRxPackets < u32) :
    (stats.foldl accumulate a).totalRxPackets
      = (a.totalRxPackets + (stats.map FlowStats.rxPackets).sum) % u32 := by
  induction stats generalizing a with
  | nil => simp [Nat.mod_eq_of_lt ha]
  | cons f rest ih =>
    have hlt : (accumulate a f).totalRxPackets < u32 := Nat.mod_lt _ (by unfold u32; norm_num)
    rw [List.foldl_cons, ih _ hlt]
    simp only [accumulate, List.map_cons, List.sum_cons, Nat.mod_add_mod, Nat.add_assoc]

theorem foldl_firstTx_of_no_tx (stats : List FlowStats) (a : FlowTotals)
    (h : ∀ f ∈ stats, f.txPackets = 0) :
    (stats.foldl accumulate a).firstTxTime = a.firstTxTime := by
  induction stats generalizing a with
  | nil => rfl
  | cons f rest ih =>
    rw [List.foldl_cons, ih _ (fun g hg => h g (by simp [hg]))]
    simp [accumulate, h f (by simp)]

theorem foldl_lastRx_of_no_rx (stats : List FlowStats) (a : FlowTotals)
    (h : ∀ f ∈ stats, f.rxPackets = 0) :
    (stats.foldl accumulate a).lastRxTime = a.lastRxTime := by
  induction stats generalizing a with
  | nil => rfl
  | cons f rest ih =>
    rw [List.foldl_cons, ih _ (fun g hg => h g (by simp [hg]))]
    simp [accumulate, h f (by simp)]

/-- C5, as stated, fails at simTime = 2: with no flow record at all the totals
are zero and the fallback duration `simTime - 2.0` is 0, so line 479 divides
`0 * 8` by `0 * 1000`; the throughput is not a number, not 0. -/
theorem degenerate_counterexample :
    (foldFlows 2 []).totalTxPackets = 0 ∧ (foldFlows 2 []).totalRxPackets = 0
      ∧ (foldFlows 2 []).totalRxBytes = 0
      ∧ totalDuration (foldFlows 2 []) 2 = 0
      ∧ throughput (foldFlows 2 []) 2 = none
      ∧ throughput (foldFlows 2 []) 2 ≠ some 0 := by
  have hd : totalDuration (foldFlows 2 []) 2 = 0 := by
    norm_num [totalDuration, foldFlows, initTotals]
  have ht : throughput (foldFlows 2 []) 2 = none := by
    unfold throughput
    rw [hd]
    simp [fdiv]
  refine ⟨rfl, rfl, rfl, hd, ht, ?_⟩
  rw [ht]
  simp

/-- The fallback of lines 473-476 is not taken for a negative simTime: with no
flow record and simTime = -1 the window is `0 - (-1) = 1`, not `simTime - 2`. -/
theorem duration_negative_simTime :
    totalDuration (foldFlows (-1) []) (-1) = 1 := by
  norm_num [totalDuration, foldFlows, initTotals]

/-- The packet totals are 32-bit: two records of 2^31 packets each give the
totals 0 although packets were sent and received, and the transmission window
is then the measured one. -/
theorem totals_wrap_example :
    (foldFlows 300
        [⟨0, 2 ^ 31, 2 ^ 31, 0, 0, 2, 100⟩, ⟨0, 2 ^ 31, 2 ^ 31, 0, 0, 3, 200⟩]).totalTxPackets = 0
      ∧ (foldFlows 300
        [⟨0, 2 ^ 31, 2 ^ 31, 0, 0, 2, 100⟩, ⟨0, 2 ^ 31, 2 ^ 31, 0, 0, 3, 200⟩]).totalRxPackets = 0
      ∧ totalDuration (foldFlows 300
        [⟨0, 2 ^ 31, 2 ^ 31, 0, 0, 2, 100⟩, ⟨0, 2 ^ 31, 2 ^ 31, 0, 0, 3, 200⟩]) 300 = 198 := by
  norm_num [totalDuration, foldFlows, initTotals, accumulate, u32]

/-- C5 (amended): for every collection of flow records whose 32-bit totals
totalTxPackets and totalRxPackets are 0 without wrap-around and whose received
bytes total 0, and every simTime >= 0 other than 2.0, the reduction yields
throughput 0, average delay 0, delivery ratio 0 and loss ratio 0, and the
duration it uses is simTime - 2.0. -/
theorem degenerate_traffic (stats : List FlowStats) (simTime : ℚ)
    (hs0 : 0 ≤ simTime) (hs2 : simTime ≠ 2)
    (hwrapTx : (stats.map FlowStats.txPackets).sum < 2 ^ 32)
    (hwrapRx : (stats.map FlowStats.rxPackets).sum < 2 ^ 32)
    (htx : (foldFlows simTime stats).totalTxPackets = 0)
    (hrx : (foldFlows simTime stats).totalRxPackets = 0)
    (hbytes : (foldFlows simTime stats).totalRxBytes = 0) :
    totalDuration (foldFlows simTime stats) simTime = simTime - 2
      ∧ throughput (foldFlows simTime stats) simTime = some 0
      ∧ avgDelay (foldFlows simTime stats) = 0
      ∧ pdr (foldFlows simTime stats) = 0
      ∧ plr (foldFlows simTime stats) = 0 := by
  have hu : (0 : Nat) < u32 := by unfold u32; norm_num
  have htxsum : (stats.map FlowStats.txPackets).sum = 0 := by
    have h := foldl_accumulate_tx stats (initTotals simTime) hu
    unfold foldFlows at htx
    rw [htx] at h
    simp only [initTotals, Nat.zero_add] at h
    rw [Nat.mod_eq_of_lt (by unfold u32; exact hwrapTx)] at h
    exact h.symm
  have hrxsum : (stats.map FlowStats.rxPackets).sum = 0 := by
    have h := foldl_accumulate_rx stats (initTotals simTime) hu
    unfold foldFlows at hrx
    rw [hrx] at h
    simp only [initTotals, Nat.zero_add] at h
    rw [Nat.mod_eq_of_lt (by unfold u32; exact hwrapRx)] at h
    exact h.symm
  have htxall : ∀ f ∈ stats, f.txPackets = 0 := by
    intro f hf
    exact List.sum_eq_zero_iff.mp htxsum _ (List.mem_map_of_mem _ hf)
  have hrxall : ∀ f ∈ stats, f.rxPackets = 0 := by
    intro f hf
    exact List.sum_eq_zero_iff.mp hrxsum _ (List.mem_map_of_mem _ hf)
  have hfirst : (foldFlows simTime stats).firstTxTime = simTime :=
    foldl_firstTx_of_no_tx stats _ htxall
  have hlast : (foldFlows simTime stats).lastRxTime = 0 :=
    foldl_lastRx_of_no_rx stats _ hrxall
  have hdur : totalDuration (foldFlows simTime stats) simTime = simTime - 2 := by
    unfold totalDuration
    rw [hfirst, hlast, if_pos (by linarith)]
  refine ⟨hdur, ?_, ?_, ?_, ?_⟩
  · unfold throughput fdiv
    rw [hdur, hbytes, if_neg]
    · simp
    · intro hc
      apply hs2
      linarith
  · unfold avgDelay
    rw [hrx]
    simp
  · unfold pdr
    rw [htx]
    simp
  · unfold plr
    rw [htx]
    simp

theorem degenerate_traffic_witness :
    totalDuration (foldFlows 300 [⟨0, 0, 0, 0, 0, 0, 0⟩]) 300 = 300 - 2
      ∧ throughput (foldFlows 300 [⟨0, 0, 0, 0, 0, 0, 0⟩]) 300 = some 0
      ∧ avgDelay (foldFlows 300 [⟨0, 0, 0, 0, 0, 0, 0⟩]) = 0
      ∧ pdr (foldFlows 300 [⟨0, 0, 0, 0, 0, 0, 0⟩]) = 0
      ∧ plr (foldFlows 300 [⟨0, 0, 0, 0, 0, 0, 0⟩]) = 0 :=
  degenerate_traffic [⟨0, 0, 0, 0, 0, 0, 0⟩] 300 (by norm_num) (by norm_num)
    (by norm_num) (by norm_num)
    (by norm_num [foldFlows, initTotals, accumulate, u32])
    (by norm_num [foldFlows, initTotals, accumulate, u32])
    (by norm_num [foldFlows, initTotals, accumulate])

/-- Five flow records with the totals of the scenario of C6: each sends 200
packets and receives 190 of 512 bytes with a delay sum of 3.8 s. -/
theorem scenario_records_totals :
    foldFlows 300
        [⟨19 / 5, 190, 200, 10, 190 * 512, 2, 294⟩, ⟨19 / 5, 190, 200, 10, 190 * 512, 3, 295⟩,
         ⟨19 / 5, 190, 200, 10, 190 * 512, 4, 296⟩, ⟨19 / 5, 190, 200, 10, 190 * 512, 5, 297⟩,
         ⟨19 / 5, 190, 200, 10, 190 * 512, 6, 298⟩]
      = { totalDelay := 19, totalRxPackets := 950, totalTxPackets := 1000,
          totalLostPackets := 50, totalRxBytes := 950 * 512, firstTxTime := 2,
          lastRxTime := 298 } := by
  norm_num [foldFlows, initTotals, accumulate, u32]

/-- C6, as stated, fails in its last figure: for five records with the totals
of the scenario the throughput is (950*512*8)/(296*1000) = 2432/185 =
13.1459..., which lies in [13.145, 13.155) and so is 13.15, not 13.16, to two
decimals. -/
theorem scenario_throughput_counterexample :
    throughput (foldFlows 300
        [⟨19 / 5, 190, 200, 10, 190 * 512, 2, 294⟩, ⟨19 / 5, 190, 200, 10, 190 * 512, 3, 295⟩,
         ⟨19 / 5, 190, 200, 10, 190 * 512, 4, 296⟩, ⟨19 / 5, 190, 200, 10, 190 * 512, 5, 297⟩,
         ⟨19 / 5, 190, 200, 10, 190 * 512, 6, 298⟩]) 300 = some (2432 / 185)
      ∧ (2432 / 185 : ℚ) = (950 * 512 * 8) / (296 * 1000)
      ∧ (2432 / 185 : ℚ) < 13155 / 1000
      ∧ ¬ ((13155 / 1000 : ℚ) ≤ 2432 / 185 ∧ (2432 / 185 : ℚ) < 13165 / 1000) := by
  rw [scenario_records_totals]
  refine ⟨?_, by norm_num, by norm_num, by norm_num⟩
  norm_num [throughput, totalDuration, fdiv]

/-- C6 (amended): for any 5 flow records whose folded totals are
totalTxPackets = 1000, totalRxPackets = 950, totalLostPackets = 50,
totalRxBytes = 950*512, totalDelay = 19.0 s, firstTxTime = 2.0 and
lastRxTime = 298.0 with simTime = 300, the reduction yields delivery ratio 95,
loss ratio 5, average delay 20 ms and throughput (950*512*8)/(296*1000), which
is 13.15 to two decimals (13.1459...). -/
theorem scenario_reduction (stats : List FlowStats) (_h5 : stats.length = 5)
    (htx : (foldFlows 300 stats).totalTxPackets = 1000)
    (hrx : (foldFlows 300 stats).totalRxPackets = 950)
    (hlost : (foldFlows 300 stats).totalLostPackets = 50)
    (hbytes : (foldFlows 300 stats).totalRxBytes = 950 * 512)
    (hdelay : (foldFlows 300 stats).totalDelay = 19)
    (hfirst : (foldFlows 300 stats).firstTxTime = 2)
    (hlast : (foldFlows 300 stats).lastRxTime = 298) :
    pdr (foldFlows 300 stats) = 95
      ∧ plr (foldFlows 300 stats) = 5
      ∧ avgDelay (foldFlows 300 stats) = 20
      ∧ throughput (foldFlows 300 stats) 300 = some ((950 * 512 * 8) / (296 * 1000))
      ∧ (13145 / 1000 : ℚ) ≤ (950 * 512 * 8) / (296 * 1000)
      ∧ ((950 * 512 * 8) / (296 * 1000) : ℚ) < 13155 / 1000 := by
  refine ⟨?_, ?_, ?_, ?_, by norm_num, by norm_num⟩
  · unfold pdr
    rw [htx, hrx]
    norm_num
  · unfold plr
    rw [htx, hlost]
    norm_num
  · unfold avgDelay
    rw [hrx, hdelay]
    norm_num
  · unfold throughput totalDuration fdiv
    rw [hbytes, hfirst, hlast]
    norm_num

theorem scenario_reduction_witness :
    pdr (foldFlows 300
        [⟨19 / 5, 190, 200, 10, 190 * 512, 2, 294⟩, ⟨19 / 5, 190, 200, 10, 190 * 512, 3, 295⟩,
         ⟨19 / 5, 190, 200, 10, 190 * 512, 4, 296⟩, ⟨19 / 5, 190, 200, 10, 190 * 512, 5, 297⟩,
         ⟨19 / 5, 190, 200, 10, 190 * 512, 6, 298⟩]) = 95 :=
  (scenario_reduction
      [⟨19 / 5, 190, 200, 10, 190 * 512, 2, 294⟩, ⟨19 / 5, 190, 200, 10, 190 * 512, 3, 295⟩,
       ⟨19 / 5, 190, 200, 10, 190 * 512, 4, 296⟩, ⟨19 / 5, 190, 200, 10, 190 * 512, 5, 297⟩,
       ⟨19 / 5, 190, 200, 10, 190 * 512, 6, 298⟩]
      rfl
      (by rw [scenario_records_totals])
      (by rw [scenario_records_totals])
      (by rw [scenario_records_totals])
      (by rw [scenario_records_totals])
      (by rw [scenario_records_totals])
      (by rw [scenario_records_totals])
      (by rw [scenario_records_totals])).1

/-! ### The depleted count -/

/-- C11: from the freshly reset ledger for totalNodes nodes (a `uint32_t`) and
after any calls with times >= 0 (any node ids, duplicates and out-of-range ids
included), a further call leaves the depleted count greater than or equal to
its previous value, and the depleted count is at most totalNodes before and
after it. -/
theorem deadCount_monotone_bounded (n : Nat) (hn : n < 2 ^ 32) (evs : List (Nat × ℚ))
    (hnn : ∀ e ∈ evs, 0 ≤ e.2) (nodeId : Nat) (t : ℚ) (ht : 0 ≤ t) :
    (runDepletions (resetLedger n) evs).g_deadCount
        ≤ (EnergyDepletedCallback (runDepletions (resetLedger n) evs) nodeId t).g_deadCount
      ∧ (runDepletions (resetLedger n) evs).g_deadCount ≤ n
      ∧ (EnergyDepletedCallback (runDepletions (resetLedger n) evs) nodeId t).g_deadCount
          ≤ n := by
  have inv := ledgerInv_run n hn evs hnn
  have inv2 := ledgerInv_step n hn evs _ inv (nodeId, t) ht
  have hb : ∀ (l : List (Nat × ℚ)) (s : Ledger), LedgerInv n l s → s.g_deadCount ≤ n := by
    intro l s i
    rw [i.count, ← i.length]
    exact countDepleted_le _
  refine ⟨?_, hb _ _ inv, hb _ _ inv2⟩
  set s := runDepletions (resetLedger n) evs with hs
  by_cases hg : nodeId < s.g_nodeDeathTimes.length ∧ s.g_nodeDeathTimes.getD nodeId 0 < 0
  · obtain ⟨_, hlt⟩ := flag_false_of_guard n evs s inv nodeId hg
    rw [callback_deadCount s nodeId t hg, Nat.mod_eq_of_lt (by unfold u32; omega)]
    omega
  · rw [callback_of_not_guard s nodeId t hg]

theorem deadCount_monotone_bounded_witness :
    (runDepletions (resetLedger 2) [(0, 1), (5, 2), (0, 3)]).g_deadCount
        ≤ (EnergyDepletedCallback
            (runDepletions (resetLedger 2) [(0, 1), (5, 2), (0, 3)]) 1 4).g_deadCount
      ∧ (runDepletions (resetLedger 2) [(0, 1), (5, 2), (0, 3)]).g_deadCount ≤ 2
      ∧ (EnergyDepletedCallback
            (runDepletions (resetLedger 2) [(0, 1), (5, 2), (0, 3)]) 1 4).g_deadCount ≤ 2 :=
  deadCount_monotone_bounded 2 (by norm_num) [(0, 1), (5, 2), (0, 3)] (by norm_num) 1 4
    (by norm_num)

/-! ### Simultaneous notifications -/

/-- A call for node `a` does not change whether the guard of line 100 holds for
another node `b`. -/
theorem guard_other (s : Ledger) (a b : Nat) (t : ℚ) (hab : a ≠ b) :
    (b < (EnergyDepletedCallback s a t).g_nodeDeathTimes.length
        ∧ (EnergyDepletedCallback s a t).g_nodeDeathTimes.getD b 0 < 0)
      ↔ (b < s.g_nodeDeathTimes.length ∧ s.g_nodeDeathTimes.getD b 0 < 0) := by
  rw [callback_length]
  by_cases hg : a < s.g_nodeDeathTimes.length ∧ s.g_nodeDeathTimes.getD a 0 < 0
  · rw [callback_deathTimes s a t hg, getD_set_other _ _ _ _ hab]
  · rw [callback_of_not_guard s a t hg]

/-- C20: for every ledger state and every two notifications with the same
timestamp, for the same node or for different nodes, the two orders of
applying them give the same ledger state. -/
theorem simultaneous_order_insensitive (s : Ledger) (a b : Nat) (t : ℚ) :
    EnergyDepletedCallback (EnergyDepletedCallback s a t) b t
      = EnergyDepletedCallback (EnergyDepletedCallback s b t) a t := by
  by_cases hab : a = b
  · rw [hab]
  · have hba : b ≠ a := fun h => hab h.symm
    by_cases ha : a < s.g_nodeDeathTimes.length ∧ s.g_nodeDeathTimes.getD a 0 < 0
    · by_cases hb : b < s.g_nodeDeathTimes.length ∧ s.g_nodeDeathTimes.getD b 0 < 0
      · have hb2 := (guard_other s a b t hab).mpr hb
        have ha2 := (guard_other s b a t hba).mpr ha
        rw [callback_of_guard _ b t hb2, callback_of_guard _ a t ha2,
          callback_of_guard s a t ha, callback_of_guard s b t hb]
        simp only [List.set_comm t t _ hab]
      · have hb2 : ¬ _ := fun h => hb ((guard_other s a b t hab).mp h)
        rw [callback_of_not_guard _ b t hb2, callback_of_not_guard s b t hb]
    · have ha2 : ¬ _ := fun h => ha ((guard_other s b a t hba).mp h)
      rw [callback_of_not_guard s a t ha, callback_of_not_guard _ a t ha2]

/-! ### The rate computation at its edges -/

theorem r_l_pos (mean : ℚ) : 0 < r_l mean := by
  unfold r_l
  exact div_pos one_pos (lt_of_lt_of_le (by norm_num) (le_max_left _ _))

theorem r_h_pos (S mean : ℚ) (L H : Nat) : 0 < r_h S mean L H := by
  unfold r_h
  split_ifs
  · exact r_l_pos mean
  · exact lt_of_lt_of_le (by norm_num) (le_max_left _ _)

theorem foldl_min_le_init (l : List ℚ) (a : ℚ) : l.foldl min a ≤ a := by
  induction l generalizing a with
  | nil => exact le_rfl
  | cons x rest ih => exact le_trans (ih (min a x)) (min_le_left a x)

theorem foldl_min_le_mem (l : List ℚ) (a x : ℚ) (hx : x ∈ l) : l.foldl min a ≤ x := by
  induction l generalizing a with
  | nil => simp at hx
  | cons y rest ih =>
    rw [List.mem_cons] at hx
    rcases hx with rfl | hx
    · exact le_trans (foldl_min_le_init rest (min a x)) (min_le_right a x)
    · exact ih (min a y) hx

theorem foldl_min_mem (l : List ℚ) (a : ℚ) : l.foldl min a = a ∨ l.foldl min a ∈ l := by
  induction l generalizing a with
  | nil => exact Or.inl rfl
  | cons y rest ih =>
    rcases ih (min a y) with h | h
    · rcases min_choice a y with h2 | h2
      · left
        rw [List.foldl_cons, h, h2]
      · right
        rw [List.foldl_cons, h, h2]
        exact List.mem_cons_self _ _
    · right
      exact List.mem_cons_of_mem _ h

/-- The value `minOfList` returns is an element of the list and a lower bound
of it. -/
theorem minOfList_spec (l : List ℚ) (m : ℚ) (h : minOfList l = some m) :
    m ∈ l ∧ ∀ x ∈ l, m ≤ x := by
  cases l with
  | nil => simp [minOfList] at h
  | cons t ts =>
    simp only [minOfList, Option.some.injEq] at h
    subst h
    constructor
    · rcases foldl_min_mem ts t with h | h
      · rw [h]
        exact List.mem_cons_self _ _
      · exact List.mem_cons_of_mem _ h
    · intro x hx
      rw [List.mem_cons] at hx
      rcases hx with rfl | hx
      · exact foldl_min_le_init ts x
      · exact foldl_min_le_mem ts t x hx

theorem foldl_min_assoc (l : List ℚ) (a t : ℚ) :
    l.foldl min (min a t) = min a (l.foldl min t) := by
  induction l generalizing t with
  | nil => rfl
  | cons y rest ih =>
    rw [List.foldl_cons, List.foldl_cons, min_assoc, ih]

theorem foldl_max_assoc (l : List ℚ) (a t : ℚ) :
    l.foldl max (max a t) = max a (l.foldl max t) := by
  induction l generalizing t with
  | nil => rfl
  | cons y rest ih =>
    rw [List.foldl_cons, List.foldl_cons, max_assoc, ih]

theorem foldl_firstTx (stats : List FlowStats) (a : FlowTotals) :
    (stats.foldl accumulate a).firstTxTime = (txTimes stats).foldl min a.firstTxTime := by
  induction stats generalizing a with
  | nil => rfl
  | cons f rest ih =>
    rw [List.foldl_cons, ih]
    by_cases h : 0 < f.txPackets
    · simp [txTimes, accumulate, h]
    · simp [txTimes, accumulate, h]

theorem foldl_lastRx (stats : List FlowStats) (a : FlowTotals) :
    (stats.foldl accumulate a).lastRxTime = (rxTimes stats).foldl max a.lastRxTime := by
  induction stats generalizing a with
  | nil => rfl
  | cons f rest ih =>
    rw [List.foldl_cons, ih]
    by_cases h : 0 < f.rxPackets
    · simp [rxTimes, accumulate, h]
    · simp [rxTimes, accumulate, h]

/-- The accumulators of lines 448-449 stay inside the min and the max of the
loop: firstTxTime is the smaller of simTime and the minimum of timeFirstTxPacket
over the records with txPackets > 0, lastRxTime is the larger of 0 and the
maximum of timeLastRxPacket over the records with rxPackets > 0. -/
theorem window_bounds (stats : List FlowStats) (simTime : ℚ) :
    (foldFlows simTime stats).firstTxTime = min simTime (specFirstTxTime simTime stats)
      ∧ (foldFlows simTime stats).lastRxTime = max 0 (specLastRxTime stats)
      ∧ (txTimes stats = [] → (foldFlows simTime stats).firstTxTime = simTime)
      ∧ (rxTimes stats = [] → (foldFlows simTime stats).lastRxTime = 0)
      ∧ (specFirstTxTime simTime stats ≤ simTime →
          (foldFlows simTime stats).firstTxTime = specFirstTxTime simTime stats)
      ∧ (0 ≤ specLastRxTime stats →
          (foldFlows simTime stats).lastRxTime = specLastRxTime stats) := by
  have hfirst : (foldFlows simTime stats).firstTxTime
      = min simTime (specFirstTxTime simTime stats) := by
    unfold foldFlows specFirstTxTime
    rw [foldl_firstTx]
    cases h : txTimes stats with
    | nil => simp [minOfList, initTotals]
    | cons t ts =>
      simp only [minOfList, initTotals, List.foldl_cons]
      exact foldl_min_assoc ts simTime t
  have hlast : (foldFlows simTime stats).lastRxTime = max 0 (specLastRxTime stats) := by
    unfold foldFlows specLastRxTime
    rw [foldl_lastRx]
    cases h : rxTimes stats with
    | nil => simp [maxOfList, initTotals]
    | cons t ts =>
      simp only [maxOfList, initTotals, List.foldl_cons]
      exact foldl_max_assoc ts 0 t
  refine ⟨hfirst, hlast, ?_, ?_, ?_, ?_⟩
  · intro h
    rw [hfirst]
    simp [specFirstTxTime, h, minOfList]
  · intro h
    rw [hlast]
    simp [specLastRxTime, h, maxOfList]
  · intro h
    rw [hfirst]
    exact min_eq_right h
  · intro h
    rw [hlast]
    exact max_eq_right h

theorem foldl_max_ge_init (l : List ℚ) (a : ℚ) : a ≤ l.foldl max a := by
  induction l generalizing a with
  | nil => exact le_rfl
  | cons x rest ih => exact le_trans (le_max_left a x) (ih (max a x))

theorem foldl_max_ge_mem (l : List ℚ) (a x : ℚ) (hx : x ∈ l) : x ≤ l.foldl max a := by
  induction l generalizing a with
  | nil => simp at hx
  | cons y rest ih =>
    rw [List.mem_cons] at hx
    rcases hx with rfl | hx
    · exact le_trans (le_max_right a x) (foldl_max_ge_init rest (max a x))
    · exact ih (max a y) hx

theorem foldl_max_mem (l : List ℚ) (a : ℚ) : l.foldl max a = a ∨ l.foldl max a ∈ l := by
  induction l generalizing a with
  | nil => exact Or.inl rfl
  | cons y rest ih =>
    rcases ih (max a y) with h | h
    · rcases max_choice a y with h2 | h2
      · left
        rw [List.foldl_cons, h, h2]
      · right
        rw [List.foldl_cons, h, h2]
        exact List.mem_cons_self _ _
    · right
      exact List.mem_cons_of_mem _ h

/-- The value `maxOfList` returns is an element of the list and an upper bound
of it. -/
theorem maxOfList_spec (l : List ℚ) (m : ℚ) (h : maxOfList l = some m) :
    m ∈ l ∧ ∀ x ∈ l, x ≤ m := by
  cases l with
  | nil => simp [maxOfList] at h
  | cons t ts =>
    simp only [maxOfList, Option.some.injEq] at h
    subst h
    constructor
    · rcases foldl_max_mem ts t with h | h
      · rw [h]
        exact List.mem_cons_self _ _
      · exact List.mem_cons_of_mem _ h
    · intro x hx
      rw [List.mem_cons] at hx
      rcases hx with rfl | hx
      · exact foldl_max_ge_init ts x
      · exact foldl_max_ge_mem ts t x hx

theorem mem_txTimes (stats : List FlowStats) (t : ℚ) (h : t ∈ txTimes stats) :
    ∃ f ∈ stats, 0 < f.txPackets ∧ f.timeFirstTxPacket = t := by
  unfold txTimes at h
  obtain ⟨f, hf, rfl⟩ := List.mem_map.mp h
  rw [List.mem_filter] at hf
  exact ⟨f, hf.1, by simpa using hf.2, rfl⟩

theorem mem_rxTimes (stats : List FlowStats) (t : ℚ) (h : t ∈ rxTimes stats) :
    ∃ f ∈ stats, 0 < f.rxPackets ∧ f.timeLastRxPacket = t := by
  unfold rxTimes at h
  obtain ⟨f, hf, rfl⟩ := List.mem_map.mp h
  rw [List.mem_filter] at hf
  exact ⟨f, hf.1, by simpa using hf.2, rfl⟩

/-- C15: for every collection of flow records with the timestamps a run
stopped at simTime produces (no first-transmit time after simTime, no negative
last-receive time), firstTxTime is the minimum of timeFirstTxPacket over the
records with txPackets > 0 when there is such a record and simTime when there
is none, and lastRxTime is the maximum of timeLastRxPacket over the records
with rxPackets > 0 when there is such a record and 0 when there is none. -/
theorem window_is_min_max (stats : List FlowStats) (simTime : ℚ)
    (htx : ∀ f ∈ stats, 0 < f.txPackets → f.timeFirstTxPacket ≤ simTime)
    (hrx : ∀ f ∈ stats, 0 < f.rxPackets → 0 ≤ f.timeLastRxPacket) :
    (foldFlows simTime stats).firstTxTime = specFirstTxTime simTime stats
      ∧ (foldFlows simTime stats).lastRxTime = specLastRxTime stats
      ∧ (∀ m, minOfList (txTimes stats) = some m →
          (foldFlows simTime stats).firstTxTime = m
            ∧ (∃ f ∈ stats, 0 < f.txPackets ∧ f.timeFirstTxPacket = m)
            ∧ ∀ f ∈ stats, 0 < f.txPackets → m ≤ f.timeFirstTxPacket)
      ∧ (minOfList (txTimes stats) = none →
          (foldFlows simTime stats).firstTxTime = simTime
            ∧ ∀ f ∈ stats, ¬ 0 < f.txPackets)
      ∧ (∀ m, maxOfList (rxTimes stats) = some m →
          (foldFlows simTime stats).lastRxTime = m
            ∧ (∃ f ∈ stats, 0 < f.rxPackets ∧ f.timeLastRxPacket = m)
            ∧ ∀ f ∈ stats, 0 < f.rxPackets → f.timeLastRxPacket ≤ m)
      ∧ (maxOfList (rxTimes stats) = none →
          (foldFlows simTime stats).lastRxTime = 0
            ∧ ∀ f ∈ stats, ¬ 0 < f.rxPackets) := by
  obtain ⟨hfirst, hlast, hnotx, hnorx, _, _⟩ := window_bounds stats simTime
  have hspecTx : specFirstTxTime simTime stats ≤ simTime := by
    unfold specFirstTxTime
    cases hm : minOfList (txTimes stats) with
    | none => exact le_rfl
    | some m =>
      obtain ⟨f, hf, hpos, hfm⟩ := mem_txTimes stats m (minOfList_spec _ m hm).1
      rw [← hfm]
      exact htx f hf hpos
  have hspecRx : 0 ≤ specLastRxTime stats := by
    unfold specLastRxTime
    cases hm : maxOfList (rxTimes stats) with
    | none => exact le_rfl
    | some m =>
      obtain ⟨f, hf, hpos, hfm⟩ := mem_rxTimes stats m (maxOfList_spec _ m hm).1
      rw [← hfm]
      exact hrx f hf hpos
  have h1 : (foldFlows simTime stats).firstTxTime = specFirstTxTime simTime stats := by
    rw [hfirst]
    exact min_eq_right hspecTx
  have h2 : (foldFlows simTime stats).lastRxTime = specLastRxTime stats := by
    rw [hlast]
    exact max_eq_right hspecRx
  refine ⟨h1, h2, ?_, ?_, ?_, ?_⟩
  · intro m hm
    refine ⟨?_, mem_txTimes stats m (minOfList_spec _ m hm).1, ?_⟩
    · rw [h1]
      simp [specFirstTxTime, hm]
    · intro f hf hpos
      apply (minOfList_spec _ m hm).2
      unfold txTimes
      exact List.mem_map.mpr ⟨f, List.mem_filter.mpr ⟨hf, by simpa using hpos⟩, rfl⟩
  · intro hm
    have hnil : txTimes stats = [] := by
      cases h : txTimes stats with
      | nil => rfl
      | cons t ts => simp [h, minOfList] at hm
    refine ⟨hnotx hnil, ?_⟩
    intro f hf hpos
    have : f.timeFirstTxPacket ∈ txTimes stats := by
      unfold txTimes
      exact List.mem_map.mpr ⟨f, List.mem_filter.mpr ⟨hf, by simpa using hpos⟩, rfl⟩
    rw [hnil] at this
    simp at this
  · intro m hm
    refine ⟨?_, mem_rxTimes stats m (maxOfList_spec _ m hm).1, ?_⟩
    · rw [h2]
      simp [specLastRxTime, hm]
    · intro f hf hpos
      apply (maxOfList_spec _ m hm).2
      unfold rxTimes
      exact List.mem_map.mpr ⟨f, List.mem_filter.mpr ⟨hf, by simpa using hpos⟩, rfl⟩
  · intro hm
    have hnil : rxTimes stats = [] := by
      cases h : rxTimes stats with
      | nil => rfl
      | cons t ts => simp [h, maxOfList] at hm
    refine ⟨hnorx hnil, ?_⟩
    intro f hf hpos
    have : f.timeLastRxPacket ∈ rxTimes stats := by
      unfold rxTimes
      exact List.mem_map.mpr ⟨f, List.mem_filter.mpr ⟨hf, by simpa using hpos⟩, rfl⟩
    rw [hnil] at this
    simp at this

theorem window_is_min_max_witness :
    (foldFlows 300 [⟨0, 1, 1, 0, 512, 3, 7⟩, ⟨0, 0, 1, 1, 0, 2, 0⟩]).firstTxTime
        = specFirstTxTime 300 [⟨0, 1, 1, 0, 512, 3, 7⟩, ⟨0, 0, 1, 1, 0, 2, 0⟩]
      ∧ (foldFlows 300 [⟨0, 1, 1, 0, 512, 3, 7⟩, ⟨0, 0, 1, 1, 0, 2, 0⟩]).lastRxTime
        = specLastRxTime [⟨0, 1, 1, 0, 512, 3, 7⟩, ⟨0, 0, 1, 1, 0, 2, 0⟩] :=
  have h := window_is_min_max [⟨0, 1, 1, 0, 512, 3, 7⟩, ⟨0, 0, 1, 1, 0, 2, 0⟩] 300
    (by
      intro f hf _
      simp only [List.mem_cons, List.mem_singleton, List.not_mem_nil, or_false] at hf
      rcases hf with rfl | rfl <;> norm_num)
    (by
      intro f hf _
      simp only [List.mem_cons, List.mem_singleton, List.not_mem_nil, or_false] at hf
      rcases hf with rfl | rfl <;> norm_num)
  ⟨h.1, h.2.1⟩

/-! ### The duration the throughput is divided by -/

/-- C14, as stated, fails: with simTime = 1 and no flow record the measured
window is `0 - 1 <= 0`, the fallback gives the duration `1 - 2 = -1`, and the
throughput of line 479 is computed from this negative duration. -/
theorem duration_counterexample :
    totalDuration (foldFlows 1 []) 1 = -1
      ∧ ¬ (0 < totalDuration (foldFlows 1 []) 1)
      ∧ throughput (foldFlows 1 []) 1 = fdiv (0 * 8) (-1 * 1000) := by
  have hd : totalDuration (foldFlows 1 []) 1 = -1 := by
    norm_num [totalDuration, foldFlows, initTotals]
  refine ⟨hd, ?_, ?_⟩
  · rw [hd]
    norm_num
  · unfold throughput
    rw [hd]
    rfl

/-- C14 (amended): for every collection of flow records and every simTime, the
duration of the reduction is lastRxTime - firstTxTime when that difference is
> 0 and simTime - 2.0 otherwise; it is strictly positive exactly when the
difference is > 0 or simTime > 2.0, so for every simTime > 2.0 the throughput is
computed from a strictly positive duration. -/
theorem duration_positive (stats : List FlowStats) (simTime : ℚ) :
    (0 < (foldFlows simTime stats).lastRxTime - (foldFlows simTime stats).firstTxTime →
        totalDuration (foldFlows simTime stats) simTime
          = (foldFlows simTime stats).lastRxTime - (foldFlows simTime stats).firstTxTime)
      ∧ (¬ 0 < (foldFlows simTime stats).lastRxTime - (foldFlows simTime stats).firstTxTime →
        totalDuration (foldFlows simTime stats) simTime = simTime - 2)
      ∧ (0 < totalDuration (foldFlows simTime stats) simTime
        ↔ (0 < (foldFlows simTime stats).lastRxTime - (foldFlows simTime stats).firstTxTime
            ∨ 2 < simTime))
      ∧ (2 < simTime →
        0 < totalDuration (foldFlows simTime stats) simTime
          ∧ throughput (foldFlows simTime stats) simTime
              = some ((foldFlows simTime stats).totalRxBytes * 8
                  / (totalDuration (foldFlows simTime stats) simTime * 1000))) := by
  generalize foldFlows simTime stats = a
  have hpos : 0 < totalDuration a simTime
      ↔ (0 < a.lastRxTime - a.firstTxTime ∨ 2 < simTime) := by
    unfold totalDuration
    split_ifs with h
    · constructor
      · intro h2
        right
        linarith
      · rintro (h2 | h2)
        · linarith
        · linarith
    · constructor
      · intro h2
        exact Or.inl h2
      · intro _
        exact lt_of_not_le h
  refine ⟨?_, ?_, hpos, ?_⟩
  · intro h
    unfold totalDuration
    rw [if_neg (not_le.mpr h)]
  · intro h
    unfold totalDuration
    rw [if_pos (not_lt.mp h)]
  · intro h
    have hd := hpos.mpr (Or.inr h)
    refine ⟨hd, ?_⟩
    unfold throughput fdiv
    rw [if_neg]
    intro hc
    have : totalDuration a simTime = 0 := by
      rcases mul_eq_zero.mp hc with h0 | h0
      · exact h0
      · norm_num at h0
    linarith

theorem duration_positive_witness :
    0 < totalDuration (foldFlows 300 []) 300
      ∧ throughput (foldFlows 300 []) 300
          = some ((foldFlows 300 []).totalRxBytes * 8
              / (totalDuration (foldFlows 300 []) 300 * 1000)) :=
  (duration_positive [] 300).2.2.2 (by norm_num)

/-! ### The energy report -/

/-- The value line 345, 353 or 358 stores for a source. -/
theorem recordLoop_eq (sources : List EnergySource) (A fill B : List ℚ)
    (hfill : fill.length = sources.length) :
    (sources.enumFrom A.length).foldl
        (fun v p =>
          match p.2.kind with
          | .genericBattery => v.set p.1 p.2.remainingAtRecord
          | .basicSource => v.set p.1 p.2.remainingAtRecord
          | .unknown => v.set p.1 0)
        (A ++ fill ++ B)
      = A ++ sources.map specInitialContribution ++ B := by
  induction sources generalizing A fill with
  | nil =>
    have : fill = [] := List.length_eq_zero.mp hfill
    simp [this]
  | cons s rest ih =>
    cases fill with
    | nil => simp at hfill
    | cons y fill' =>
      have hlen : fill'.length = rest.length := by simpa using hfill
      have hset : ∀ x : ℚ, (A ++ y :: fill' ++ B).set A.length x
          = (A ++ [x]) ++ fill' ++ B := by
        intro x
        simp [List.set_append]
      have ih' := fun x : ℚ => ih (A ++ [x]) fill' hlen
      simp only [List.length_append, List.length_singleton] at ih'
      simp only [List.enumFrom_cons, List.foldl_cons, List.map_cons]
      cases hk : s.kind
      · simp only [hset, ih', specInitialContribution, hk]
        simp
      · simp only [hset, ih', specInitialContribution, hk]
        simp
      · simp only [hset, ih', specInitialContribution, hk]
        simp

/-- The recording loop stores, for every source, what the specification calls
its contribution to the initial energy. -/
theorem recordInitialEnergyLoop_eq (sources : List EnergySource) :
    recordInitialEnergyLoop sources = sources.map specInitialContribution := by
  have h := recordLoop_eq sources [] (List.replicate sources.length 0) []
    (by simp)
  simpa [recordInitialEnergyLoop, List.enum] using h

theorem reportLoop_eq (sources : List EnergySource) (A B : List ℚ) (acc : ℚ × ℚ) :
    (sources.enumFrom A.length).foldl
        (reportStep (A ++ sources.map specInitialContribution ++ B)) acc
      = (acc.1 + (sources.map specInitialContribution).sum,
          acc.2 + (sources.map specRemainingContribution).sum) := by
  induction sources generalizing A acc with
  | nil => simp
  | cons s rest ih =>
    have hI : A ++ (s :: rest).map specInitialContribution ++ B
        = (A ++ [specInitialContribution s]) ++ rest.map specInitialContribution ++ B := by
      simp
    have hget : (A ++ (s :: rest).map specInitialContribution ++ B).getD A.length 0
        = specInitialContribution s := by
      have hq : (A ++ ((s :: rest).map specInitialContribution ++ B))[A.length]?
          = some (specInitialContribution s) := by
        rw [List.getElem?_append_right (le_refl _), Nat.sub_self]
        simp
      rw [List.append_assoc, List.getD_eq_getElem?_getD, hq]
      rfl
    have hlt : A.length < (A ++ (s :: rest).map specInitialContribution ++ B).length := by
      simp only [List.length_append, List.length_map, List.length_cons]
      omega
    have ih' := ih (A ++ [specInitialContribution s])
    simp only [List.length_append, List.length_singleton] at ih'
    rw [List.enumFrom_cons, List.foldl_cons]
    have hstep : reportStep (A ++ (s :: rest).map specInitialContribution ++ B) acc
        (A.length, s)
        = (acc.1 + specInitialContribution s, acc.2 + specRemainingContribution s) := by
      unfold reportStep
      simp only [hget, hlt, if_true]
      cases hk : s.kind <;> simp [specInitialContribution, specRemainingContribution, hk]
    rw [hstep, hI, ih']
    simp only [List.map_cons, List.sum_cons]
    ext <;> simp only <;> ring

/-- The recording and the report loop taken by themselves, for every mix of
sources: an unrecognized source adds zero to both totals, a recognized source
adds its recorded initial energy and its current remaining energy. -/
theorem energy_report_loop_totals (sources : List EnergySource) :
    (energyReportLoop (recordInitialEnergyLoop sources) sources).totalInitialJ
        = (sources.map specInitialContribution).sum
      ∧ (energyReportLoop (recordInitialEnergyLoop sources) sources).totalRemainingJ
        = (sources.map specRemainingContribution).sum
      ∧ (energyReportLoop (recordInitialEnergyLoop sources) sources).totalConsumedJ
        = (energyReportLoop (recordInitialEnergyLoop sources) sources).totalInitialJ
          - (energyReportLoop (recordInitialEnergyLoop sources) sources).totalRemainingJ := by
  have h := reportLoop_eq sources [] [] (0, 0)
  simp only [List.nil_append, List.append_nil, List.length_nil, zero_add] at h
  refine ⟨?_, ?_, rfl⟩
  · unfold energyReportLoop
    rw [recordInitialEnergyLoop_eq]
    simp only [List.enum, h]
  · unfold energyReportLoop
    rw [recordInitialEnergyLoop_eq]
    simp only [List.enum, h]

theorem cast_loop_none (sources : List EnergySource) :
    sources.foldl
        (fun st src =>
          st.bind fun _ =>
            match src.kind with
            | .genericBattery => some ()
            | .basicSource => none
            | .unknown => none)
        (none : Option Unit) = none := by
  induction sources with
  | nil => rfl
  | cons src rest ih => simpa using ih

/-- The configuration loop gets through exactly when every source is a
`GenericBatteryModel`. -/
theorem configureBatteries_eq_some_iff (sources : List EnergySource) :
    configureBatteries sources = some ()
      ↔ ∀ src ∈ sources, src.kind = EnergySourceKind.genericBattery := by
  unfold configureBatteries
  induction sources with
  | nil => simp
  | cons src rest ih =>
    rw [List.foldl_cons]
    cases hk : src.kind
    · simp only [Option.some_bind, ih, List.mem_cons, forall_eq_or_imp, hk, true_and]
    · simp only [Option.some_bind, cast_loop_none, List.mem_cons, forall_eq_or_imp, hk]
      simp
    · simp only [Option.some_bind, cast_loop_none, List.mem_cons, forall_eq_or_imp, hk]
      simp

theorem connectRemainingEnergyTraces_eq_some_iff (sources : List EnergySource) :
    connectRemainingEnergyTraces sources = some ()
      ↔ ∀ src ∈ sources, src.kind = EnergySourceKind.genericBattery := by
  unfold connectRemainingEnergyTraces
  induction sources with
  | nil => simp
  | cons src rest ih =>
    rw [List.foldl_cons]
    cases hk : src.kind
    · simp only [Option.some_bind, ih, List.mem_cons, forall_eq_or_imp, hk, true_and]
    · simp only [Option.some_bind, cast_loop_none, List.mem_cons, forall_eq_or_imp, hk]
      simp
    · simp only [Option.some_bind, cast_loop_none, List.mem_cons, forall_eq_or_imp, hk]
      simp

/-- The report of `main` is printed exactly when every source is a
`GenericBatteryModel`. -/
theorem energyReport_isSome_iff (sources : List EnergySource) :
    (energyReport sources).isSome = true
      ↔ ∀ src ∈ sources, src.kind = EnergySourceKind.genericBattery := by
  constructor
  · intro h
    by_contra hc
    have hcfg : configureBatteries sources = none := by
      cases hq : configureBatteries sources with
      | none => rfl
      | some u => exact absurd ((configureBatteries_eq_some_iff sources).mp hq) hc
    simp [energyReport, recordInitialEnergy, hcfg] at h
  · intro h
    have h1 := (configureBatteries_eq_some_iff sources).mpr h
    have h2 := (connectRemainingEnergyTraces_eq_some_iff sources).mpr h
    simp [energyReport, recordInitialEnergy, h1, h2]

/-- What holds of the energy report as the code stands: the recording and the
report loop count, for every mix of sources, an unrecognized source as zero in
totalInitialEnergy and in totalRemainingEnergy and a recognized source with its
recorded initial energy and its current remaining energy, and
totalConsumedEnergy = totalInitialEnergy - totalRemainingEnergy; the report is
produced, with these totals, for every container whose sources are all
GenericBatteryModel, as `main` installs them. -/
theorem energy_report_generic (sources mix : List EnergySource)
    (hall : ∀ src ∈ sources, src.kind = EnergySourceKind.genericBattery) :
    (∃ rep, energyReport sources = some rep
        ∧ rep = energyReportLoop (recordInitialEnergyLoop sources) sources
        ∧ rep.totalInitialJ = (sources.map EnergySource.remainingAtRecord).sum
        ∧ rep.totalRemainingJ = (sources.map EnergySource.remainingAtReport).sum
        ∧ rep.totalConsumedJ = rep.totalInitialJ - rep.totalRemainingJ)
      ∧ (energyReportLoop (recordInitialEnergyLoop mix) mix).totalInitialJ
          = (mix.map fun src =>
              if src.kind = EnergySourceKind.unknown then 0 else src.remainingAtRecord).sum
      ∧ (energyReportLoop (recordInitialEnergyLoop mix) mix).totalRemainingJ
          = (mix.map fun src =>
              if src.kind = EnergySourceKind.unknown then 0 else src.remainingAtReport).sum
      ∧ (energyReportLoop (recordInitialEnergyLoop mix) mix).totalConsumedJ
          = (energyReportLoop (recordInitialEnergyLoop mix) mix).totalInitialJ
            - (energyReportLoop (recordInitialEnergyLoop mix) mix).totalRemainingJ := by
  have h1 := (configureBatteries_eq_some_iff sources).mpr hall
  have h2 := (connectRemainingEnergyTraces_eq_some_iff sources).mpr hall
  obtain ⟨hi, hr, hc⟩ := energy_report_loop_totals sources
  obtain ⟨mi, mr, mc⟩ := energy_report_loop_totals mix
  have e1 : sources.map specInitialContribution
      = sources.map EnergySource.remainingAtRecord := by
    apply List.map_congr_left
    intro src hsrc
    simp [specInitialContribution, hall src hsrc]
  have e2 : sources.map specRemainingContribution
      = sources.map EnergySource.remainingAtReport := by
    apply List.map_congr_left
    intro src hsrc
    simp [specRemainingContribution, hall src hsrc]
  have e3 : mix.map specInitialContribution
      = mix.map fun src =>
          if src.kind = EnergySourceKind.unknown then 0 else src.remainingAtRecord := by
    apply List.map_congr_left
    intro src _
    cases hk : src.kind <;> simp [specInitialContribution, hk]
  have e4 : mix.map specRemainingContribution
      = mix.map fun src =>
          if src.kind = EnergySourceKind.unknown then 0 else src.remainingAtReport := by
    apply List.map_congr_left
    intro src _
    cases hk : src.kind <;> simp [specRemainingContribution, hk]
  refine ⟨⟨energyReportLoop (recordInitialEnergyLoop sources) sources, ?_, rfl, ?_, ?_, hc⟩,
    ?_, ?_, mc⟩
  · simp [energyReport, recordInitialEnergy, h1, h2]
  · rw [hi, e1]
  · rw [hr, e2]
  · rw [mi, e3]
  · rw [mr, e4]

theorem energy_report_generic_witness :
    ∃ rep, energyReport [⟨.genericBattery, 216, 200⟩, ⟨.genericBattery, 216, 150⟩] = some rep
      ∧ rep = energyReportLoop
          (recordInitialEnergyLoop [⟨.genericBattery, 216, 200⟩, ⟨.genericBattery, 216, 150⟩])
          [⟨.genericBattery, 216, 200⟩, ⟨.genericBattery, 216, 150⟩]
      ∧ rep.totalInitialJ
        = ([⟨.genericBattery, 216, 200⟩, ⟨.genericBattery, 216, 150⟩].map
            EnergySource.remainingAtRecord).sum
      ∧ rep.totalRemainingJ
        = ([⟨.genericBattery, 216, 200⟩, ⟨.genericBattery, 216, 150⟩].map
            EnergySource.remainingAtReport).sum
      ∧ rep.totalConsumedJ = rep.totalInitialJ - rep.totalRemainingJ :=
  (energy_report_generic [⟨.genericBattery, 216, 200⟩, ⟨.genericBattery, 216, 150⟩]
    [⟨.genericBattery, 216, 200⟩, ⟨.unknown, 50, 40⟩, ⟨.basicSource, 500, 450⟩]
    (by
      intro src hsrc
      simp only [List.mem_cons, List.mem_singleton, List.not_mem_nil, or_false] at hsrc
      rcases hsrc with rfl | rfl <;> rfl)).1

/-! ### The send schedules -/

/-- The schedule at position `idx` of the result is the loop body applied to
`idx` and to the sender id at that position. -/
theorem install_sender (rng : RandomStreams) (shuffle : List Nat → List Nat)
    (numNodes : Nat) (startTime stopTime heavyFraction heavyTrafficShare meanLight : ℚ)
    (maxPackets packetSize sinkNodeId : Nat) (r : TrafficInstall)
    (hr : r = InstallRandomizedUdpTraffic rng shuffle numNodes startTime stopTime
      heavyFraction heavyTrafficShare meanLight maxPackets packetSize sinkNodeId)
    (idx : Nat) (s : SendSchedule) (hs : r.senders[idx]? = some s) :
    idx < r.totalSenders
      ∧ s = scheduleSender rng r.heavyCnt r.meanHeavy meanLight startTime stopTime
          maxPackets packetSize idx (r.shuffledIds.getD idx 0) := by
  subst hr
  simp only [InstallRandomizedUdpTraffic] at hs ⊢
  rw [List.getElem?_map] at hs
  have hlt : idx < (shuffle (senderIds numNodes sinkNodeId)).length % u32 := by
    by_contra hc
    rw [List.getElem?_eq_none (by simpa using hc)] at hs
    simp at hs
  rw [List.getElem?_range hlt] at hs
  simp only [Option.map_some', Option.some.injEq] at hs
  exact ⟨hlt, hs.symm⟩

/-- C16: every send interval that InstallRandomizedUdpTraffic schedules is
max(0.01, draw), hence at least 0.01 s, where the draw comes from the
heavy-class distribution exactly for the positions below heavyCount of the
shuffled sender list and from the light-class distribution for the others. -/
theorem interval_floor_by_class (rng : RandomStreams) (shuffle : List Nat → List Nat)
    (numNodes : Nat) (startTime stopTime heavyFraction heavyTrafficShare meanLight : ℚ)
    (maxPackets packetSize sinkNodeId : Nat) (r : TrafficInstall)
    (hr : r = InstallRandomizedUdpTraffic rng shuffle numNodes startTime stopTime
      heavyFraction heavyTrafficShare meanLight maxPackets packetSize sinkNodeId)
    (idx : Nat) (s : SendSchedule) (hs : r.senders[idx]? = some s) :
    (s.isHeavy = true ↔ idx < r.heavyCnt)
      ∧ (idx < r.heavyCnt → s.interval = max (1 / 100) (rng.expHeavy idx))
      ∧ (¬ idx < r.heavyCnt → s.interval = max (1 / 100) (rng.expLight idx))
      ∧ 1 / 100 ≤ s.interval
      ∧ s.nodeId = r.shuffledIds.getD idx 0
      ∧ r.heavyCnt = heavyCount heavyFraction r.totalSenders := by
  obtain ⟨_, hsched⟩ := install_sender rng shuffle numNodes startTime stopTime heavyFraction
    heavyTrafficShare meanLight maxPackets packetSize sinkNodeId r hr idx s hs
  have hH : r.heavyCnt = heavyCount heavyFraction r.totalSenders := by
    subst hr
    rfl
  refine ⟨?_, ?_, ?_, ?_, ?_, hH⟩
  · rw [hsched]
    simp [scheduleSender]
  · intro h
    rw [hsched]
    simp [scheduleSender, h]
  · intro h
    rw [hsched]
    simp [scheduleSender, h]
  · rw [hsched]
    simp only [scheduleSender]
    split_ifs <;> exact le_max_left _ _
  · rw [hsched]
    rfl

/-- C17: the jitter of the sender at position idx is the uniform draw requested
with the bounds 0 and 0.5 * classMeanInterval, classMeanInterval being
meanHeavyIntervalSeconds for the positions below heavyCount (the heavy senders)
and meanLightIntervalSeconds for the others; when that draw lies within the
requested bounds, the start time baseStartTime + jitter lies in
[baseStartTime, baseStartTime + 0.5 * classMeanInterval]. The sink endpoint
starts at 1.0, so with baseStartTime = 2.0 every sender starts strictly after
it. -/
theorem start_time_window (rng : RandomStreams) (shuffle : List Nat → List Nat)
    (numNodes : Nat) (startTime stopTime heavyFraction heavyTrafficShare meanLight : ℚ)
    (maxPackets packetSize sinkNodeId : Nat) (r : TrafficInstall)
    (hr : r = InstallRandomizedUdpTraffic rng shuffle numNodes startTime stopTime
      heavyFraction heavyTrafficShare meanLight maxPackets packetSize sinkNodeId)
    (idx : Nat) (s : SendSchedule) (hs : r.senders[idx]? = some s)
    (hlo : 0 ≤ rng.uniformValue idx 0
      ((1 / 2) * (if idx < heavyCount heavyFraction r.totalSenders
        then meanHeavyIntervalSeconds heavyTrafficShare meanLight
          (lightCount heavyFraction r.totalSenders) (heavyCount heavyFraction r.totalSenders)
        else meanLight)))
    (hhi : rng.uniformValue idx 0
      ((1 / 2) * (if idx < heavyCount heavyFraction r.totalSenders
        then meanHeavyIntervalSeconds heavyTrafficShare meanLight
          (lightCount heavyFraction r.totalSenders) (heavyCount heavyFraction r.totalSenders)
        else meanLight))
      ≤ (1 / 2) * (if idx < heavyCount heavyFraction r.totalSenders
        then meanHeavyIntervalSeconds heavyTrafficShare meanLight
          (lightCount heavyFraction r.totalSenders) (heavyCount heavyFraction r.totalSenders)
        else meanLight)) :
    s.startTime = startTime + rng.uniformValue idx 0
        ((1 / 2) * (if idx < heavyCount heavyFraction r.totalSenders
          then meanHeavyIntervalSeconds heavyTrafficShare meanLight
            (lightCount heavyFraction r.totalSenders)
            (heavyCount heavyFraction r.totalSenders)
          else meanLight))
      ∧ startTime ≤ s.startTime
      ∧ s.startTime ≤ startTime
          + (1 / 2) * (if idx < heavyCount heavyFraction r.totalSenders
            then meanHeavyIntervalSeconds heavyTrafficShare meanLight
              (lightCount heavyFraction r.totalSenders)
              (heavyCount heavyFraction r.totalSenders)
            else meanLight)
      ∧ (s.isHeavy = true ↔ idx < heavyCount heavyFraction r.totalSenders)
      ∧ r.totalSenders = (shuffle (senderIds numNodes sinkNodeId)).length % u32
      ∧ r.sinkStartTime = 1
      ∧ (startTime = 2 → r.sinkStartTime < s.startTime) := by
  obtain ⟨_, hsched⟩ := install_sender rng shuffle numNodes startTime stopTime heavyFraction
    heavyTrafficShare meanLight maxPackets packetSize sinkNodeId r hr idx s hs
  have hH : r.heavyCnt = heavyCount heavyFraction r.totalSenders := by
    subst hr
    rfl
  have hL : r.lightCnt = lightCount heavyFraction r.totalSenders := by
    subst hr
    rfl
  have hmh : r.meanHeavy
      = meanHeavyIntervalSeconds heavyTrafficShare meanLight
          (lightCount heavyFraction r.totalSenders)
          (heavyCount heavyFraction r.totalSenders) := by
    rw [← hH, ← hL]
    subst hr
    rfl
  have htot : r.totalSenders = (shuffle (senderIds numNodes sinkNodeId)).length % u32 := by
    subst hr
    rfl
  have hsink : r.sinkStartTime = 1 := by
    subst hr
    rfl
  have hstart : s.startTime = startTime + rng.uniformValue idx 0
      ((1 / 2) * (if idx < heavyCount heavyFraction r.totalSenders
        then meanHeavyIntervalSeconds heavyTrafficShare meanLight
          (lightCount heavyFraction r.totalSenders)
          (heavyCount heavyFraction r.totalSenders)
        else meanLight)) := by
    rw [hsched, ← hmh, ← hH]
    simp only [scheduleSender, jitter, classMeanInterval, decide_eq_true_eq]
  have hheavy : s.isHeavy = true ↔ idx < heavyCount heavyFraction r.totalSenders := by
    rw [hsched, ← hH]
    simp [scheduleSender]
  refine ⟨hstart, ?_, ?_, hheavy, htot, hsink, ?_⟩
  · rw [hstart]
    linarith
  · rw [hstart]
    linarith
  · intro h2
    rw [hsink, hstart, h2]
    linarith

theorem install_sender_exists (rng : RandomStreams) (shuffle : List Nat → List Nat)
    (numNodes : Nat) (startTime stopTime heavyFraction heavyTrafficShare meanLight : ℚ)
    (maxPackets packetSize sinkNodeId : Nat) (r : TrafficInstall)
    (hr : r = InstallRandomizedUdpTraffic rng shuffle numNodes startTime stopTime
      heavyFraction heavyTrafficShare meanLight maxPackets packetSize sinkNodeId)
    (idx : Nat) (hidx : idx < r.totalSenders) :
    r.senders[idx]?
      = some (scheduleSender rng r.heavyCnt r.meanHeavy meanLight startTime stopTime
          maxPackets packetSize idx (r.shuffledIds.getD idx 0)) := by
  subst hr
  simp only [InstallRandomizedUdpTraffic] at hidx ⊢
  rw [List.getElem?_map, List.getElem?_range hidx]
  rfl

theorem meanHeavy_pos (S mean : ℚ) (L H : Nat) : 0 < meanHeavyIntervalSeconds S mean L H := by
  unfold meanHeavyIntervalSeconds
  exact div_pos one_pos (r_h_pos S mean L H)

theorem exampleInstall_totalSenders : exampleInstall.totalSenders = 2 := by
  simp [exampleInstall, InstallRandomizedUdpTraffic, senderIds, u32, List.range_succ]

theorem interval_floor_by_class_witness :
    (1 / 100 : ℚ)
      ≤ (scheduleSender exampleStreams exampleInstall.heavyCnt exampleInstall.meanHeavy 1 2
          300 320 512 0 (exampleInstall.shuffledIds.getD 0 0)).interval :=
  (interval_floor_by_class exampleStreams id 3 2 300 (2 / 10) (8 / 10) 1 320 512 0
    exampleInstall rfl 0 _
    (install_sender_exists exampleStreams id 3 2 300 (2 / 10) (8 / 10) 1 320 512 0
      exampleInstall rfl 0 (by rw [exampleInstall_totalSenders]; norm_num))).2.2.2.1

theorem start_time_window_witness :
    (2 : ℚ)
      ≤ (scheduleSender exampleStreams exampleInstall.heavyCnt exampleInstall.meanHeavy 1 2
          300 320 512 0 (exampleInstall.shuffledIds.getD 0 0)).startTime :=
  have hc : (0 : ℚ) ≤ (1 / 2) * (if 0 < heavyCount (2 / 10) exampleInstall.totalSenders
      then meanHeavyIntervalSeconds (8 / 10) 1
        (lightCount (2 / 10) exampleInstall.totalSenders)
        (heavyCount (2 / 10) exampleInstall.totalSenders)
      else 1) := by
    split_ifs
    · exact mul_nonneg (by norm_num) (le_of_lt (meanHeavy_pos _ _ _ _))
    · norm_num
  have hv : ∀ hi : ℚ, exampleStreams.uniformValue 0 0 hi = (0 + hi) / 2 := fun _ => rfl
  (start_time_window exampleStreams id 3 2 300 (2 / 10) (8 / 10) 1 320 512 0
    exampleInstall rfl 0 _
    (install_sender_exists exampleStreams id 3 2 300 (2 / 10) (8 / 10) 1 320 512 0
      exampleInstall rfl 0 (by rw [exampleInstall_totalSenders]; norm_num))
    (by rw [hv]; linarith)
    (by rw [hv]; linarith)).2.1

/-! ### The sender list -/

theorem foldl_skip_eq_filter (sink : Nat) (l init : List Nat) :
    l.foldl (fun ids i => if i = sink then ids else ids ++ [i]) init
      = init ++ l.filter (fun i => decide (i ≠ sink)) := by
  induction l generalizing init with
  | nil => simp
  | cons a rest ih =>
    rw [List.foldl_cons, ih]
    by_cases h : a = sink
    · simp [h]
    · simp [h]

theorem senderIds_eq_filter (numNodes sinkNodeId : Nat) :
    senderIds numNodes sinkNodeId
      = (List.range numNodes).filter (fun i => decide (i ≠ sinkNodeId)) := by
  unfold senderIds
  rw [foldl_skip_eq_filter]
  rfl

theorem mem_senderIds (numNodes sinkNodeId i : Nat) :
    i ∈ senderIds numNodes sinkNodeId ↔ i < numNodes ∧ i ≠ sinkNodeId := by
  rw [senderIds_eq_filter]
  simp

theorem nodup_senderIds (numNodes sinkNodeId : Nat) :
    (senderIds numNodes sinkNodeId).Nodup := by
  rw [senderIds_eq_filter]
  exact (List.nodup_range numNodes).filter _

theorem length_senderIds (numNodes sinkNodeId : Nat) (hs : sinkNodeId < numNodes) :
    (senderIds numNodes sinkNodeId).length = numNodes - 1 := by
  have hfin : (senderIds numNodes sinkNodeId).toFinset
      = (Finset.range numNodes).erase sinkNodeId := by
    ext i
    simp only [List.mem_toFinset, mem_senderIds, Finset.mem_erase, Finset.mem_range]
    exact and_comm
  rw [← List.toFinset_card_of_nodup (nodup_senderIds numNodes sinkNodeId), hfin,
    Finset.card_erase_of_mem (Finset.mem_range.mpr hs), Finset.card_range]

theorem install_senders_nodeIds (rng : RandomStreams) (shuffle : List Nat → List Nat)
    (numNodes : Nat) (startTime stopTime heavyFraction heavyTrafficShare meanLight : ℚ)
    (maxPackets packetSize sinkNodeId : Nat) (r : TrafficInstall)
    (hr : r = InstallRandomizedUdpTraffic rng shuffle numNodes startTime stopTime
      heavyFraction heavyTrafficShare meanLight maxPackets packetSize sinkNodeId)
    (hlen : r.shuffledIds.length < 2 ^ 32) :
    r.senders.map SendSchedule.nodeId = r.shuffledIds := by
  subst hr
  simp only [InstallRandomizedUdpTraffic] at hlen ⊢
  rw [Nat.mod_eq_of_lt (by unfold u32; exact hlen)]
  apply List.ext_getElem
  · simp
  · intro n h1 h2
    simp only [List.getElem_map, List.getElem_range, scheduleSender]
    exact List.getD_eq_getElem _ _ h2

/-- C19: for every node count N (a `uint32_t`) and sinkNodeId < N, whatever
permutation the shuffle applies, the sender list does not contain sinkNodeId
and contains every other node id below N exactly once (and nothing else);
exactly N - 1 send schedules are installed, one per sender id, so that every
sender has exactly one class. -/
theorem sender_list_excludes_sink (rng : RandomStreams) (shuffle : List Nat → List Nat)
    (numNodes : Nat) (startTime stopTime heavyFraction heavyTrafficShare meanLight : ℚ)
    (maxPackets packetSize sinkNodeId : Nat) (r : TrafficInstall)
    (hr : r = InstallRandomizedUdpTraffic rng shuffle numNodes startTime stopTime
      heavyFraction heavyTrafficShare meanLight maxPackets packetSize sinkNodeId)
    (hperm : (shuffle (senderIds numNodes sinkNodeId)).Perm (senderIds numNodes sinkNodeId))
    (hN : numNodes < 2 ^ 32) (hsink : sinkNodeId < numNodes) :
    sinkNodeId ∉ r.shuffledIds
      ∧ (∀ i, i < numNodes → i ≠ sinkNodeId → r.shuffledIds.count i = 1)
      ∧ (∀ i ∈ r.shuffledIds, i < numNodes)
      ∧ r.senders.length = numNodes - 1
      ∧ r.senders.map SendSchedule.nodeId = r.shuffledIds
      ∧ (∀ i, i < numNodes → i ≠ sinkNodeId → ∃! s, s ∈ r.senders ∧ s.nodeId = i)
      ∧ (∀ i, i < numNodes → i ≠ sinkNodeId →
          ∃! c : Bool, ∃ s ∈ r.senders, s.nodeId = i ∧ s.isHeavy = c) := by
  have hids : r.shuffledIds = shuffle (senderIds numNodes sinkNodeId) := by
    subst hr
    rfl
  have hnodup : r.shuffledIds.Nodup := by
    rw [hids]
    exact hperm.nodup_iff.mpr (nodup_senderIds numNodes sinkNodeId)
  have hmem : ∀ i, i ∈ r.shuffledIds ↔ i < numNodes ∧ i ≠ sinkNodeId := by
    intro i
    rw [hids, hperm.mem_iff, mem_senderIds]
  have hlength : r.shuffledIds.length = numNodes - 1 := by
    rw [hids, hperm.length_eq, length_senderIds numNodes sinkNodeId hsink]
  have hmap := install_senders_nodeIds rng shuffle numNodes startTime stopTime heavyFraction
    heavyTrafficShare meanLight maxPackets packetSize sinkNodeId r hr (by omega)
  have huniq : ∀ i, i < numNodes → i ≠ sinkNodeId → ∃! s, s ∈ r.senders ∧ s.nodeId = i := by
    intro i hi hne
    have hin : i ∈ r.senders.map SendSchedule.nodeId := by
      rw [hmap]
      exact (hmem i).mpr ⟨hi, hne⟩
    obtain ⟨s, hs, hsi⟩ := List.mem_map.mp hin
    refine ⟨s, ⟨hs, hsi⟩, ?_⟩
    rintro s2 ⟨hs2, hs2i⟩
    have hnd : (r.senders.map SendSchedule.nodeId).Nodup := by
      rw [hmap]
      exact hnodup
    exact List.inj_on_of_nodup_map hnd hs2 hs (hs2i.trans hsi.symm)
  refine ⟨?_, ?_, ?_, ?_, hmap, huniq, ?_⟩
  · intro h
    exact ((hmem sinkNodeId).mp h).2 rfl
  · intro i hi hne
    exact List.count_eq_one_of_mem hnodup ((hmem i).mpr ⟨hi, hne⟩)
  · intro i hi
    exact ((hmem i).mp hi).1
  · have := congrArg List.length hmap
    rw [List.length_map] at this
    rw [this, hlength]
  · intro i hi hne
    obtain ⟨s, ⟨hs, hsi⟩, hu⟩ := huniq i hi hne
    refine ⟨s.isHeavy, ⟨s, hs, hsi, rfl⟩, ?_⟩
    rintro c ⟨s2, hs2, hs2i, rfl⟩
    rw [hu s2 ⟨hs2, hs2i⟩]

theorem sender_list_excludes_sink_witness :
    (0 : Nat) ∉ exampleInstall.shuffledIds ∧ exampleInstall.senders.length = 3 - 1 :=
  have h := sender_list_excludes_sink exampleStreams id 3 2 300 (2 / 10) (8 / 10) 1 320 512 0
    exampleInstall rfl (List.Perm.refl _) (by norm_num) (by norm_num)
  ⟨h.1, h.2.2.2.1⟩

/-! ### The three flow-statistics reductions -/

theorem battery_accumulate_eq (a : FlowTotals) (f : FlowStats) :
    AdhocBattery.accumulate a f = accumulate a f := by
  unfold AdhocBattery.accumulate accumulate
  rfl

theorem comparision_accumulate_eq (a : FlowTotals) (f : FlowStats) :
    AdhocComparision.accumulate a f = accumulate a f := by
  unfold AdhocComparision.accumulate accumulate
  rfl

theorem battery_foldFlows_eq (simTime : ℚ) (stats : List FlowStats) :
    AdhocBattery.foldFlows simTime stats = foldFlows simTime stats := by
  unfold AdhocBattery.foldFlows foldFlows
  have hstep : AdhocBattery.accumulate = accumulate := by
    funext a f
    exact battery_accumulate_eq a f
  have hinit : AdhocBattery.initTotals simTime = initTotals simTime := by
    unfold AdhocBattery.initTotals initTotals
    rfl
  rw [hstep, hinit]

theorem comparision_foldFlows_eq (simTime : ℚ) (stats : List FlowStats) :
    AdhocComparision.foldFlows simTime stats = foldFlows simTime stats := by
  unfold AdhocComparision.foldFlows foldFlows
  have hstep : AdhocComparision.accumulate = accumulate := by
    funext a f
    exact comparision_accumulate_eq a f
  have hinit : AdhocComparision.initTotals simTime = initTotals simTime := by
    unfold AdhocComparision.initTotals initTotals
    rfl
  rw [hstep, hinit]

/-- C21: for every collection of flow records and every simTime, the
reductions of adhoc-battery.cc, adhoc-comparision.cc and akshat-adhoc.cc give
the same totalTx, totalRx, totalLost, throughput, average delay, delivery
ratio and loss ratio. -/
theorem reductions_agree (simTime : ℚ) (stats : List FlowStats) :
    AdhocBattery.flowReport simTime stats = flowReport simTime stats
      ∧ AdhocComparision.flowReport simTime stats = flowReport simTime stats
      ∧ AdhocBattery.flowReport simTime stats = AdhocComparision.flowReport simTime stats := by
  have hb : AdhocBattery.flowReport simTime stats = flowReport simTime stats := by
    unfold AdhocBattery.flowReport flowReport
    rw [battery_foldFlows_eq]
    unfold AdhocBattery.throughput AdhocBattery.totalDuration AdhocBattery.avgDelay
      AdhocBattery.pdr AdhocBattery.plr throughput totalDuration avgDelay pdr plr
    rfl
  have hc : AdhocComparision.flowReport simTime stats = flowReport simTime stats := by
    unfold AdhocComparision.flowReport flowReport
    rw [comparision_foldFlows_eq]
    unfold AdhocComparision.throughput AdhocComparision.totalDuration
      AdhocComparision.avgDelay AdhocComparision.pdr AdhocComparision.plr
      throughput totalDuration avgDelay pdr plr
    rfl
  exact ⟨hb, hc, hb.trans hc.symm⟩

/-- The three reports on the five records of the scenario of C6. -/
theorem reductions_agree_example :
    AdhocBattery.flowReport 300
        [⟨19 / 5, 190, 200, 10, 190 * 512, 2, 294⟩, ⟨19 / 5, 190, 200, 10, 190 * 512, 3, 295⟩,
         ⟨19 / 5, 190, 200, 10, 190 * 512, 4, 296⟩, ⟨19 / 5, 190, 200, 10, 190 * 512, 5, 297⟩,
         ⟨19 / 5, 190, 200, 10, 190 * 512, 6, 298⟩]
      = { totalTxPackets := 1000, totalRxPackets := 950, totalLostPackets := 50,
          throughput := some (2432 / 185), avgDelay := 20, pdr := 95, plr := 5 } := by
  norm_num [AdhocBattery.flowReport, AdhocBattery.foldFlows, AdhocBattery.initTotals,
    AdhocBattery.accumulate, AdhocBattery.throughput, AdhocBattery.totalDuration,
    AdhocBattery.avgDelay, AdhocBattery.pdr, AdhocBattery.plr, fdiv, u32]

/-! ### The classification scenario in binary64 -/

/-- The rounding on values whose binary64 results are known: the literals 0.2,
0.8 and 1e-6, 1.0 - 0.8 = 0.19999999999999996, 0.1 + 0.2 = 0.30000000000000004,
1.0 / 3.0, -2.0 / 3.0, 1e22 / 3.0 and 0.29 * 100 = 28.999999999999996. -/
theorem double_literals :
    roundToDouble (2 / 10) = 3602879701896397 / 18014398509481984
      ∧ roundToDouble (8 / 10) = 3602879701896397 / 4503599627370496
      ∧ roundToDouble (1 / 1000000) = 4722366482869645 / 4722366482869645213696
      ∧ roundToDouble (1 - roundToDouble (8 / 10)) = 900719925474099 / 4503599627370496
      ∧ roundToDouble (roundToDouble (1 / 10) + roundToDouble (2 / 10))
          = 1351079888211149 / 4503599627370496
      ∧ roundToDouble (1 / 3) = 6004799503160661 / 18014398509481984
      ∧ roundToDouble (-2 / 3) = -6004799503160661 / 9007199254740992
      ∧ roundToDouble (10 ^ 22 / 3) = 3333333333333333508096
      ∧ roundToDouble (roundToDouble (29 / 100) * 100) = 8162774324609023 / 281474976710656
      ∧ roundToDouble 1 = 1 ∧ roundToDouble 16 = 16 ∧ roundToDouble 0 = 0 := by
  decide!

/-- The integer `roundHalfEven` returns is nearest to `n / d`: it differs from
it by at most one half. -/
theorem roundHalfEven_nearest (n d : Nat) (hd : 0 < d) :
    |(n : ℚ) / (d : ℚ) - (roundHalfEven n d : ℚ)| ≤ 1 / 2 := by
  have hdq : (0 : ℚ) < (d : ℚ) := by exact_mod_cast hd
  have hn : (n : ℚ) = (d : ℚ) * ((n / d : Nat) : ℚ) + ((n % d : Nat) : ℚ) := by
    exact_mod_cast (Nat.div_add_mod n d).symm
  have hr : ((n % d : Nat) : ℚ) < (d : ℚ) := by exact_mod_cast Nat.mod_lt n hd
  have hr0 : (0 : ℚ) ≤ ((n % d : Nat) : ℚ) := by exact_mod_cast Nat.zero_le _
  have hdiv : (n : ℚ) / (d : ℚ) = ((n / d : Nat) : ℚ) + ((n % d : Nat) : ℚ) / (d : ℚ) := by
    rw [hn]
    field_simp
    ring
  have hlow : ∀ m : Nat, m = n / d → 2 * (n % d) ≤ d →
      |(n : ℚ) / (d : ℚ) - (m : ℚ)| ≤ 1 / 2 := by
    intro m hm h2
    have h2q : (2 : ℚ) * ((n % d : Nat) : ℚ) ≤ (d : ℚ) := by exact_mod_cast h2
    rw [hdiv, hm, add_sub_cancel_left, abs_of_nonneg (div_nonneg hr0 (le_of_lt hdq)),
      div_le_iff₀ hdq]
    linarith
  have hhigh : ∀ m : Nat, m = n / d + 1 → d ≤ 2 * (n % d) →
      |(n : ℚ) / (d : ℚ) - (m : ℚ)| ≤ 1 / 2 := by
    intro m hm h2
    have h2q : (d : ℚ) ≤ (2 : ℚ) * ((n % d : Nat) : ℚ) := by exact_mod_cast h2
    have hfrac : ((n % d : Nat) : ℚ) / (d : ℚ) ≤ 1 := by
      rw [div_le_iff₀ hdq]
      linarith
    have hfrac2 : (1 : ℚ) / 2 ≤ ((n % d : Nat) : ℚ) / (d : ℚ) := by
      rw [le_div_iff₀ hdq]
      linarith
    rw [hdiv, hm]
    push_cast
    rw [abs_le]
    constructor <;> linarith
  unfold roundHalfEven
  split_ifs with h1 h2 h3
  · exact hlow _ rfl (by omega)
  · exact hhigh _ rfl (by omega)
  · exact hlow _ rfl (by omega)
  · exact hhigh _ rfl (by omega)

/-- C7, as stated, fails in the program's arithmetic: the double nearest to 0.8
is above 0.8, `1.0 - 0.8` is 0.19999999999999996, and with the counts 8 and 2
the program computes ratio = r_h = 16 + 2^-48 = 16.000000000000004 and
meanHeavyIntervalSeconds = 1/16 - 2^-56 = 0.062499999999999986, not 16, 16 and
0.0625. -/
theorem scenario_double_counterexample :
    ratioDouble (roundToDouble (8 / 10))
        (lightCountDouble (roundToDouble (2 / 10)) 10)
        (heavyCountDouble (roundToDouble (2 / 10)) 10) ≠ 16
      ∧ r_h_double (roundToDouble (8 / 10)) (roundToDouble 1)
        (lightCountDouble (roundToDouble (2 / 10)) 10)
        (heavyCountDouble (roundToDouble (2 / 10)) 10) ≠ 16
      ∧ meanHeavyIntervalSecondsDouble (roundToDouble (8 / 10)) (roundToDouble 1)
        (lightCountDouble (roundToDouble (2 / 10)) 10)
        (heavyCountDouble (roundToDouble (2 / 10)) 10) ≠ 625 / 10000 := by
  decide!

/-- C7 (amended): with total = 10 senders, heavyFraction = 0.2,
heavyTrafficShare = 0.8 and meanLightIntervalSeconds = 1.0 the program computes
heavyCount = 2, lightCount = 8, r_l = 1.0 and, in binary64 arithmetic,
ratio = r_h = 16 + 2^-48 (16.000000000000004) and
meanHeavyIntervalSeconds = 1/16 - 2^-56 (0.062499999999999986); taken exactly,
the arithmetic gives ratio = 16, r_h = 16 and meanHeavyIntervalSeconds = 0.0625. -/
theorem scenario_classification_double :
    heavyCountDouble (roundToDouble (2 / 10)) 10 = 2
      ∧ lightCountDouble (roundToDouble (2 / 10)) 10 = 8
      ∧ r_l_double (roundToDouble 1) = 1
      ∧ ratioDouble (roundToDouble (8 / 10))
          (lightCountDouble (roundToDouble (2 / 10)) 10)
          (heavyCountDouble (roundToDouble (2 / 10)) 10) = 16 + 1 / 2 ^ 48
      ∧ r_h_double (roundToDouble (8 / 10)) (roundToDouble 1)
          (lightCountDouble (roundToDouble (2 / 10)) 10)
          (heavyCountDouble (roundToDouble (2 / 10)) 10) = 16 + 1 / 2 ^ 48
      ∧ meanHeavyIntervalSecondsDouble (roundToDouble (8 / 10)) (roundToDouble 1)
          (lightCountDouble (roundToDouble (2 / 10)) 10)
          (heavyCountDouble (roundToDouble (2 / 10)) 10) = 1 / 16 - 1 / 2 ^ 56
      ∧ ratio (8 / 10) (lightCount (2 / 10) 10) (heavyCount (2 / 10) 10) = 16
      ∧ r_h (8 / 10) 1 (lightCount (2 / 10) 10) (heavyCount (2 / 10) 10) = 16
      ∧ meanHeavyIntervalSeconds (8 / 10) 1 (lightCount (2 / 10) 10)
          (heavyCount (2 / 10) 10) = 625 / 10000 := by
  obtain ⟨_, _, _, h4, h5, h6⟩ := scenario_classification
  refine ⟨?_, ?_, ?_, ?_, ?_, ?_, h4, h5, h6⟩ <;> decide!

end AdhocNet
